import Mathlib

/-!
# qr-shipment-system: shared services

A shallow embedding of the shared Go packages of the warehouse services
(`services/shared/auth/jwt.go`, `services/shared/models/models.go`,
`services/shared/models/events.go`, `services/shared/kafka/kafka.go`) together
with the properties their specification states about them.

Conventions of the embedding:

* a Go `string` is a Lean `String` (so it holds valid UTF-8); `[]byte(s)` is
  the list of its UTF-8 bytes; where a property is about Go strings that need
  not be valid UTF-8, they are given by their bytes;
* a Go `map[string]int` literal is an association list, and indexing it with a
  missing key yields the zero value `0`;
* `time.Time` is an `Int` count of nanoseconds since the Unix epoch and
  `time.Duration` an `Int` count of nanoseconds; every `time.Now()` of the
  source becomes an explicit argument, in source order;
* a Go result pair `(value, error)` is an `Except`: `.ok value` for a nil
  error, `.error err` for the pair of the zero value and `err` (every function
  embedded here returns the zero value beside a non-nil error);
* a function that can panic, and has no error result, returns an `Except` as
  well: `.error v` when it panics with the value `v`;
* a pointer to an allocated object is the index of the object in the heap,
  and a method with a pointer receiver takes and returns the state it works on;
* a Go map with string keys is an association list without repeated keys.
-/

set_option autoImplicit false

/-! ## Go runtime: maps -/

namespace golang

/-- Indexing a `map[string]int` with the comma-less form `m[k]`: the stored
value, or the zero value when the key is absent. -/
def mapIndex (m : List (String × Int)) (k : String) : Int :=
  (m.lookup k).getD 0

end golang

/-! ## Package `auth`: permission levels (jwt.go, lines 83-114) -/

namespace auth

/-- Basic scanner access. -/
def AccessLevel1 : String := "level_1"
/-- Warehouse operator. -/
def AccessLevel2 : String := "level_2"
/-- Supervisor. -/
def AccessLevel3 : String := "level_3"
/-- Manager. -/
def AccessLevel4 : String := "level_4"
/-- Admin. -/
def AccessLevel5 : String := "level_5"

/-- The map literal built inside `HasPermission`. -/
def levels : List (String × Int) :=
  [(AccessLevel1, 1), (AccessLevel2, 2), (AccessLevel3, 3), (AccessLevel4, 4), (AccessLevel5, 5)]

/-- `HasPermission` checks if a user has the required permission level. -/
def HasPermission (userLevel requiredLevel : String) : Bool :=
  let userLevelInt := golang.mapIndex levels userLevel
  let requiredLevelInt := golang.mapIndex levels requiredLevel
  decide (userLevelInt ≥ requiredLevelInt)

end auth

/-! ## Package `models`: the user record (models.go, lines 69-98) -/

namespace models

/-- `User` represents a system user. `primitive.ObjectID` is a 12-byte array,
the timestamps are nanoseconds since the epoch, `LastScan` is a nullable
pointer. -/
structure User where
  ID : List Nat
  UserID : String
  Username : String
  Email : String
  PasswordHash : String
  Role : String
  AccessLevel : String
  Barcode : String
  IsActive : Bool
  LastScan : Option Int
  CreatedAt : Int
  UpdatedAt : Int

/-- The map literal built inside `User.HasPermission`. -/
def levels : List (String × Int) :=
  [("level_1", 1), ("level_2", 2), ("level_3", 3), ("level_4", 4), ("level_5", 5)]

/-- `HasPermission` checks if user has required permission level. -/
def User.HasPermission (u : User) (requiredLevel : String) : Bool :=
  let userLevel := golang.mapIndex levels u.AccessLevel
  let reqLevel := golang.mapIndex levels requiredLevel
  decide (userLevel ≥ reqLevel)

end models

/-! ## Go runtime: time, bytes, errors -/

namespace time

/-- `time.Time`: an instant, in nanoseconds since the Unix epoch. -/
abbrev Time := Int

/-- `time.Duration`: a signed count of nanoseconds. -/
abbrev Duration := Int

/-- `time.Second`. -/
def Second : Duration := 1000000000

/-- Seconds from the zero `Time` (1 January of year 1) to the Unix epoch, the
constant `unixToInternal` of package `time`. -/
def unixToInternal : Int := 62135596800

/-- `t.Add(d)`. -/
def Add (t : Time) (d : Duration) : Time := t + d

/-- `t.Before(u)`. -/
def Before (t u : Time) : Bool := decide (t < u)

/-- `t.Truncate(d)`: `t` rounded down to a multiple of `d` since the zero time;
`t` itself when `d <= 0`. -/
def Truncate (t : Time) (d : Duration) : Time :=
  if d ≤ 0 then t else t - (t + unixToInternal * Second) % d

end time

namespace golang

/-- `[]byte(s)`: the UTF-8 bytes of a string. -/
def bytes (s : String) : List Nat :=
  s.data.flatMap fun c => (String.utf8EncodeChar c).map UInt8.toNat

end golang

namespace jwt

/-- The package-level error values of `golang-jwt/jwt/v5` (errors.go, hmac.go)
that are built by `errors.New` and that `errors.Is` can be asked about. -/
inductive Sentinel
  | ErrInvalidKey
  | ErrInvalidKeyType
  | ErrHashUnavailable
  | ErrTokenMalformed
  | ErrTokenUnverifiable
  | ErrTokenSignatureInvalid
  | ErrTokenRequiredClaimMissing
  | ErrTokenInvalidAudience
  | ErrTokenExpired
  | ErrTokenUsedBeforeIssued
  | ErrTokenInvalidIssuer
  | ErrTokenInvalidSubject
  | ErrTokenNotValidYet
  | ErrTokenInvalidId
  | ErrTokenInvalidClaims
  | ErrInvalidType
  | ErrSignatureInvalid
deriving DecidableEq, Repr

end jwt

namespace golang

/-- A Go `error` value, by the way it was built. -/
inductive Error
  /-- One of the package-level error values. -/
  | sentinel (e : jwt.Sentinel)
  /-- The result of `fmt.Errorf` with no `%w` verb (or `errors.New`). -/
  | errorf (msg : String)
  /-- The result of `fmt.Errorf(msg + ": %w", err)`: it unwraps to `err`. -/
  | wrap (msg : String) (err : Error)
  /-- An error that unwraps to two errors (several `%w` verbs, joined errors). -/
  | join (first second : Error)
deriving DecidableEq, Repr

/-- `errors.Is(err, target)` for a package-level target: the target occurs in
the tree `err` unwraps to. -/
def Error.Is : Error → jwt.Sentinel → Bool
  | .sentinel e, target => decide (e = target)
  | .errorf _, _ => false
  | .wrap _ err, target => err.Is target
  | .join first second, target => first.Is target || second.Is target

end golang

/-! ## Package `jwt` (github.com/golang-jwt/jwt/v5): claims and headers -/

namespace jwt

/-- `NumericDate`: a JSON numeric date, a wrapper around `time.Time`. -/
structure NumericDate where
  Time : time.Time
deriving DecidableEq, Repr

/-- `TimePrecision`: the precision of times in a token, one second by default. -/
def TimePrecision : time.Duration := time.Second

/-- `NewNumericDate` constructs a numeric date from a `time.Time`, truncated
to `TimePrecision`. -/
def NewNumericDate (t : time.Time) : NumericDate :=
  ⟨time.Truncate t TimePrecision⟩

/-- `RegisteredClaims`: the registered claim names of RFC 7519; the three
dates are nullable pointers. -/
structure RegisteredClaims where
  Issuer : String
  Subject : String
  Audience : List String
  ExpiresAt : Option NumericDate
  NotBefore : Option NumericDate
  IssuedAt : Option NumericDate
  ID : String
deriving DecidableEq, Repr

/-- The header of a token: the entries `typ` and `alg` of `Token.Header`, each
present as a string or not. -/
structure Header where
  typ : Option String
  alg : Option String
deriving DecidableEq, Repr

end jwt

namespace auth

/-- `JWTClaims` represents the JWT claims (jwt.go, lines 10-17). -/
structure JWTClaims where
  UserID : String
  Username : String
  Role : String
  AccessLevel : String
  RegisteredClaims : jwt.RegisteredClaims
deriving DecidableEq, Repr

end auth

/-! ## Package `crypto/hmac` over an arbitrary hash -/

namespace crypto

/-- The `crypto.Hash` values the HMAC signing methods are registered with. -/
inductive Hash
  | SHA256
  | SHA384
  | SHA512
deriving DecidableEq, Repr

/-- `hash.Hash.BlockSize()` of the three hashes. -/
def Hash.BlockSize : Hash → Nat
  | .SHA256 => 64
  | .SHA384 => 128
  | .SHA512 => 128

end crypto

/-- What the embedding takes from outside the repository and outside the
control flow of `golang-jwt`: the hash functions and the text serialisation of
a header and a claim set. Every statement below holds for every platform. -/
structure Platform where
  /-- The digest of a byte string: `h := hash.New(); h.Write(b); h.Sum(nil)`. -/
  digest : crypto.Hash → List Nat → List Nat
  /-- The two first segments of the compact serialisation, `Token.SigningString`:
  base64url of the JSON header, a dot, base64url of the JSON claims. -/
  signingString : jwt.Header → auth.JWTClaims → String

namespace hmac

/-- The key block `hmac.New` copies into `ipad` and `opad`: the key, hashed
first when longer than the block size, copied into a zero-filled block. -/
def keyBlock (P : Platform) (h : crypto.Hash) (key : List Nat) : List Nat :=
  let key := if key.length > h.BlockSize then P.digest h key else key
  (key ++ List.replicate (h.BlockSize - key.length) 0).take h.BlockSize

/-- `mac := hmac.New(h.New, key); mac.Write(message); mac.Sum(nil)`. -/
def Sum (P : Platform) (h : crypto.Hash) (key message : List Nat) : List Nat :=
  let ipad := (keyBlock P h key).map fun b => b ^^^ 0x36
  let opad := (keyBlock P h key).map fun b => b ^^^ 0x5c
  P.digest h (opad ++ P.digest h (ipad ++ message))

/-- `hmac.Equal(mac1, mac2)`. -/
def Equal (mac1 mac2 : List Nat) : Bool := decide (mac1 = mac2)

end hmac

/-! ## Package `jwt`: tokens, signing methods, parser and validator -/

namespace jwt

/-- A token string, by what `Parser.ParseUnverified` reads from it: either a
string it rejects as malformed (not three segments, a segment that is not
base64url, a header or claims segment that is not JSON of the right shape), or
a compact serialisation with the text of its two first segments, the header
and claims they decode to, and the bytes its third segment decodes to (`none`
when that segment is not base64url). `encoding/json` and `encoding/base64` are
not embedded: a string written by `Token.SignedString` reads back as the
header, claims and signature it was written from. That is so for claims whose
strings are valid UTF-8, as every Lean `String` is; a Go string that is not
valid UTF-8 is written coerced, which `json.coerceString` and
`JWTService.GenerateTokenOfBytes` below account for. -/
inductive TokenString
  | malformed (raw : String)
  | compact (signingString : String) (header : Header) (claims : auth.JWTClaims)
      (signature : Option (List Nat))
deriving DecidableEq, Repr

/-- The claims a token string carries, when it decodes. -/
def TokenString.claims : TokenString → Option auth.JWTClaims
  | .malformed _ => none
  | .compact _ _ claims _ => some claims

/-- The expires-at instant a token string carries, when it has one. -/
def TokenString.expiresAt (tokenString : TokenString) : Option time.Time :=
  match tokenString.claims with
  | none => none
  | some claims => claims.RegisteredClaims.ExpiresAt.map NumericDate.Time

/-- The signing methods the package registers (hmac.go, rsa.go, rsa_pss.go,
ecdsa.go, ed25519.go, none.go). The first three have the dynamic type
`*SigningMethodHMAC`. -/
inductive SigningMethod
  | SigningMethodHS256
  | SigningMethodHS384
  | SigningMethodHS512
  | SigningMethodRS256
  | SigningMethodRS384
  | SigningMethodRS512
  | SigningMethodPS256
  | SigningMethodPS384
  | SigningMethodPS512
  | SigningMethodES256
  | SigningMethodES384
  | SigningMethodES512
  | SigningMethodEdDSA
  | SigningMethodNone
deriving DecidableEq, Repr

/-- `SigningMethod.Alg()`. -/
def SigningMethod.Alg : SigningMethod → String
  | .SigningMethodHS256 => "HS256"
  | .SigningMethodHS384 => "HS384"
  | .SigningMethodHS512 => "HS512"
  | .SigningMethodRS256 => "RS256"
  | .SigningMethodRS384 => "RS384"
  | .SigningMethodRS512 => "RS512"
  | .SigningMethodPS256 => "PS256"
  | .SigningMethodPS384 => "PS384"
  | .SigningMethodPS512 => "PS512"
  | .SigningMethodES256 => "ES256"
  | .SigningMethodES384 => "ES384"
  | .SigningMethodES512 => "ES512"
  | .SigningMethodEdDSA => "EdDSA"
  | .SigningMethodNone => "none"

/-- `GetSigningMethod(alg)`: the registered method of that name, or nil. -/
def GetSigningMethod (alg : String) : Option SigningMethod :=
  if alg = "HS256" then some .SigningMethodHS256
  else if alg = "HS384" then some .SigningMethodHS384
  else if alg = "HS512" then some .SigningMethodHS512
  else if alg = "RS256" then some .SigningMethodRS256
  else if alg = "RS384" then some .SigningMethodRS384
  else if alg = "RS512" then some .SigningMethodRS512
  else if alg = "PS256" then some .SigningMethodPS256
  else if alg = "PS384" then some .SigningMethodPS384
  else if alg = "PS512" then some .SigningMethodPS512
  else if alg = "ES256" then some .SigningMethodES256
  else if alg = "ES384" then some .SigningMethodES384
  else if alg = "ES512" then some .SigningMethodES512
  else if alg = "EdDSA" then some .SigningMethodEdDSA
  else if alg = "none" then some .SigningMethodNone
  else none

/-- The type assertion `method.(*jwt.SigningMethodHMAC)`: the hash of the
method when its dynamic type is `*SigningMethodHMAC`, else not ok. -/
def SigningMethod.asHMAC : SigningMethod → Option crypto.Hash
  | .SigningMethodHS256 => some .SHA256
  | .SigningMethodHS384 => some .SHA384
  | .SigningMethodHS512 => some .SHA512
  | _ => none

/-- The signing algorithm of a token string: the registered method its header
names, when it decodes and names one. -/
def TokenString.method : TokenString → Option SigningMethod
  | .malformed _ => none
  | .compact _ header _ _ =>
    match header.alg with
    | none => none
    | some alg => GetSigningMethod alg

/-- The token string carries the MAC of its own signing string under `key`
with the hash `h`. -/
def TokenString.hasMAC (P : Platform) (h : crypto.Hash) (key : String) : TokenString → Prop
  | .malformed _ => False
  | .compact text _ _ signature =>
    signature = some (hmac.Sum P h (golang.bytes key) (golang.bytes text))

instance (P : Platform) (h : crypto.Hash) (key : String) (tokenString : TokenString) :
    Decidable (tokenString.hasMAC P h key) := by
  cases tokenString <;> unfold TokenString.hasMAC <;> exact inferInstance

/-- `Token`: a parsed or newly built token. -/
structure Token where
  Method : SigningMethod
  Header : Header
  Claims : auth.JWTClaims
  Signature : List Nat
  Valid : Bool
deriving DecidableEq, Repr

/-- `newError(message, err, more...)`: `fmt.Errorf` with one `%w` for `err`,
the message, and one `%w` for each of `more`. -/
def newError (message : String) (err : golang.Error) (more : List golang.Error) : golang.Error :=
  more.foldl golang.Error.join (golang.Error.wrap message err)

/-- `joinErrors(errs...)` for a non-empty list. -/
def joinErrors (first : golang.Error) (rest : List golang.Error) : golang.Error :=
  rest.foldl golang.Error.join first

/-- `NoneSignatureTypeDisallowedError` (none.go): the error of the method
"none" when the key is not the constant that allows it. It wraps
`ErrTokenUnverifiable`. -/
def NoneSignatureTypeDisallowedError : golang.Error :=
  newError "'none' signature type is not allowed" (.sentinel .ErrTokenUnverifiable) []

/-- `method.Sign(signingString, key)` with a key of type `[]byte`: the HMAC
methods return the MAC; every other method refuses a `[]byte` key. -/
def SigningMethod.Sign (P : Platform) (m : SigningMethod) (signingString : String)
    (key : List Nat) : Except golang.Error (List Nat) :=
  match m.asHMAC with
  | some h => .ok (hmac.Sum P h key (golang.bytes signingString))
  | none =>
    if m = .SigningMethodNone then
      .error NoneSignatureTypeDisallowedError
    else
      .error (.sentinel .ErrInvalidKeyType)

/-- `method.Verify(signingString, sig, key)` with a key of type `[]byte`; nil
(here `none`) when the signature is accepted. -/
def SigningMethod.Verify (P : Platform) (m : SigningMethod) (signingString : String)
    (sig key : List Nat) : Option golang.Error :=
  match m.asHMAC with
  | some h =>
    if hmac.Equal sig (hmac.Sum P h key (golang.bytes signingString)) then none
    else some (.sentinel .ErrSignatureInvalid)
  | none =>
    if m = .SigningMethodNone then
      some NoneSignatureTypeDisallowedError
    else
      some (.sentinel .ErrInvalidKeyType)

/-- `NewWithClaims(method, claims)`. -/
def NewWithClaims (method : SigningMethod) (claims : auth.JWTClaims) : Token :=
  { Method := method
    Header := { typ := some "JWT", alg := some method.Alg }
    Claims := claims
    Signature := []
    Valid := false }

/-- `token.SignedString(key)` with a key of type `[]byte`: the signing
string, a dot and the encoded signature; the error when signing fails. -/
def Token.SignedString (P : Platform) (t : Token) (key : List Nat) :
    Except golang.Error TokenString :=
  let sstr := P.signingString t.Header t.Claims
  match t.Method.Sign P sstr key with
  | .error err => .error err
  | .ok sig => .ok (.compact sstr t.Header t.Claims (some sig))

/-- `Validator`: the options of the claims validator that bear on the default
parser; no audience, issuer or subject is expected, so those checks are off. -/
structure Validator where
  leeway : time.Duration
  verifyIat : Bool

/-- `NewValidator()` with no option. -/
def NewValidator : Validator := { leeway := 0, verifyIat := false }

/-- `errorIfFalse(value, err)`. -/
def errorIfFalse (value : Bool) (err : golang.Error) : Option golang.Error :=
  if value then none else some err

/-- `errorIfRequired(required, claim)`. -/
def errorIfRequired (required : Bool) (claim : String) : Option golang.Error :=
  if required then
    some (newError (claim ++ " claim is required") (.sentinel .ErrTokenRequiredClaimMissing) [])
  else none

/-- `v.verifyExpiresAt(claims, cmp, required)`. -/
def Validator.verifyExpiresAt (v : Validator) (claims : auth.JWTClaims) (cmp : time.Time)
    (required : Bool) : Option golang.Error :=
  match claims.RegisteredClaims.ExpiresAt with
  | none => errorIfRequired required "exp"
  | some exp =>
    errorIfFalse (time.Before cmp (time.Add exp.Time v.leeway)) (.sentinel .ErrTokenExpired)

/-- `v.verifyNotBefore(claims, cmp, required)`. -/
def Validator.verifyNotBefore (v : Validator) (claims : auth.JWTClaims) (cmp : time.Time)
    (required : Bool) : Option golang.Error :=
  match claims.RegisteredClaims.NotBefore with
  | none => errorIfRequired required "nbf"
  | some nbf =>
    errorIfFalse (!time.Before cmp (time.Add nbf.Time (-v.leeway)))
      (.sentinel .ErrTokenNotValidYet)

/-- `v.verifyIssuedAt(claims, cmp, required)`. -/
def Validator.verifyIssuedAt (v : Validator) (claims : auth.JWTClaims) (cmp : time.Time)
    (required : Bool) : Option golang.Error :=
  match claims.RegisteredClaims.IssuedAt with
  | none => errorIfRequired required "iat"
  | some iat =>
    errorIfFalse (!time.Before cmp (time.Add iat.Time (-v.leeway)))
      (.sentinel .ErrTokenUsedBeforeIssued)

/-- `v.Validate(claims)`, `now` being the validator's reading of the clock:
the expiry and not-before checks always run, the issued-at check when enabled;
the failures are joined, nil (here `none`) when there is none. -/
def Validator.Validate (v : Validator) (now : time.Time) (claims : auth.JWTClaims) :
    Option golang.Error :=
  let errs : List golang.Error :=
    (v.verifyExpiresAt claims now false).toList ++
    (v.verifyNotBefore claims now false).toList ++
    (if v.verifyIat then (v.verifyIssuedAt claims now false).toList else [])
  match errs with
  | [] => none
  | first :: rest => some (joinErrors first rest)

/-- `parser.ParseUnverified(tokenString, claims)`: the token with its method
looked up from the header, and the decoded third segment. -/
def ParseUnverified (tokenString : TokenString) :
    Except golang.Error (Token × String × Option (List Nat)) :=
  match tokenString with
  | .malformed _ => .error (newError "token is malformed" (.sentinel .ErrTokenMalformed) [])
  | .compact text header claims signature =>
    match header.alg with
    | some alg =>
      match GetSigningMethod alg with
      | some method =>
        .ok ({ Method := method, Header := header, Claims := claims, Signature := [],
               Valid := false }, text, signature)
      | none =>
        .error (newError "signing method (alg) is unavailable"
          (.sentinel .ErrTokenUnverifiable) [])
    | none =>
      .error (newError "signing method (alg) is unspecified"
        (.sentinel .ErrTokenUnverifiable) [])

/-- `jwt.ParseWithClaims(tokenString, claims, keyFunc)` with the default
parser, `now` being the clock reading of its validator: parse, decode the
signature, ask `keyFunc` for the key, verify the signature, then validate the
claims. On an error the caller of this repository drops the token, so only
the error is returned. -/
def ParseWithClaims (P : Platform) (now : time.Time) (tokenString : TokenString)
    (keyFunc : Token → Except golang.Error (List Nat)) : Except golang.Error Token :=
  match ParseUnverified tokenString with
  | .error err => .error err
  | .ok (token, text, signature) =>
    match signature with
    | none =>
      .error (newError "could not base64 decode signature" (.sentinel .ErrTokenMalformed) [])
    | some sig =>
      match keyFunc token with
      | .error err =>
        .error (newError "error while executing keyfunc" (.sentinel .ErrTokenUnverifiable) [err])
      | .ok key =>
        match token.Method.Verify P text sig key with
        | some err => .error (newError "" (.sentinel .ErrTokenSignatureInvalid) [err])
        | none =>
          match NewValidator.Validate now token.Claims with
          | some err => .error (newError "" (.sentinel .ErrTokenInvalidClaims) [err])
          | none => .ok { token with Signature := sig, Valid := true }

end jwt

/-! ## Package `auth`: the token service (jwt.go, lines 19-81) -/

namespace auth

/-- `JWTService` handles JWT operations. -/
structure JWTService where
  secretKey : String
  issuer : String
deriving DecidableEq, Repr

/-- `NewJWTService` creates a new JWT service. -/
def NewJWTService (secretKey issuer : String) : JWTService :=
  { secretKey := secretKey, issuer := issuer }

/-- The claims `GenerateToken` builds; `nowExp`, `nowIat` and `nowNbf` are its
three readings of `time.Now()`, in source order. -/
def JWTService.newClaims (j : JWTService) (nowExp nowIat nowNbf : time.Time)
    (userID username role accessLevel : String) (expiration : time.Duration) : JWTClaims :=
  { UserID := userID
    Username := username
    Role := role
    AccessLevel := accessLevel
    RegisteredClaims :=
      { ExpiresAt := some (jwt.NewNumericDate (time.Add nowExp expiration))
        IssuedAt := some (jwt.NewNumericDate nowIat)
        NotBefore := some (jwt.NewNumericDate nowNbf)
        Issuer := j.issuer
        Subject := ""
        Audience := []
        ID := "" } }

/-- `GenerateToken` generates a JWT token for a user. -/
def JWTService.GenerateToken (P : Platform) (j : JWTService) (nowExp nowIat nowNbf : time.Time)
    (userID username role accessLevel : String) (expiration : time.Duration) :
    Except golang.Error jwt.TokenString :=
  let claims := j.newClaims nowExp nowIat nowNbf userID username role accessLevel expiration
  let token := jwt.NewWithClaims .SigningMethodHS256 claims
  token.SignedString P (golang.bytes j.secretKey)

/-- The key function `ValidateToken` hands to the parser. -/
def JWTService.keyFunc (j : JWTService) (token : jwt.Token) : Except golang.Error (List Nat) :=
  match token.Method.asHMAC with
  | none => .error (.errorf ("unexpected signing method: " ++ token.Header.alg.getD "<nil>"))
  | some _ => .ok (golang.bytes j.secretKey)

/-- `ValidateToken` validates a JWT token and returns the claims; `now` is the
clock reading of the claims validator. -/
def JWTService.ValidateToken (P : Platform) (j : JWTService) (now : time.Time)
    (tokenString : jwt.TokenString) : Except golang.Error JWTClaims :=
  match jwt.ParseWithClaims P now tokenString j.keyFunc with
  | .error err => .error (.wrap "failed to parse token" err)
  | .ok token =>
    if token.Valid then .ok token.Claims
    else .error (.errorf "invalid token")

/-- `RefreshToken` generates a new token with extended expiration; `now` is
the clock reading of the validation, `nowExp`, `nowIat`, `nowNbf` those of the
generation that follows it. -/
def JWTService.RefreshToken (P : Platform) (j : JWTService) (now nowExp nowIat nowNbf : time.Time)
    (tokenString : jwt.TokenString) (newExpiration : time.Duration) :
    Except golang.Error jwt.TokenString :=
  match j.ValidateToken P now tokenString with
  | .error err => .error (.wrap "invalid token for refresh" err)
  | .ok claims =>
    -- Generate new token with same user data but new expiration
    j.GenerateToken P nowExp nowIat nowNbf claims.UserID claims.Username claims.Role
      claims.AccessLevel newExpiration

end auth

/-! ## Go runtime: maps with string keys, formatted output -/

namespace golang

/-- The comma-ok form `v, ok := m[k]` on a map with string keys: the stored
value when the key is present. -/
def mapLookup {α : Type} (m : List (String × α)) (k : String) : Option α :=
  m.lookup k

/-- The assignment `m[k] = v`: the entry of `k`, if any, is replaced. -/
def mapStore {α : Type} (m : List (String × α)) (k : String) (v : α) : List (String × α) :=
  (k, v) :: m.filter fun e => e.1 != k

/-- An argument of a formatted print. -/
inductive FormatArg
  | str (s : String)
  | err (e : Error)
deriving DecidableEq, Repr

/-- One call of `log.Printf(format, args...)`. -/
structure LogLine where
  format : String
  args : List FormatArg
deriving DecidableEq, Repr

end golang

/-! ## Package `kafka-go` (github.com/segmentio/kafka-go): writers and readers -/

namespace kafkago

/-- `kafka.Writer`, with the fields the repository sets: the address built by
`kafka.TCP(brokers...)`, the topic and the balancer, always `&kafka.LeastBytes{}`. -/
structure Writer where
  Addr : List String
  Topic : String
  Balancer : String
deriving DecidableEq, Repr

/-- `(*Writer).Close()` (writer.go): it marks the writer closed, flushes the
pending batches, waits for them and returns nil; it has no other return. -/
def Writer.Close (_w : Writer) : Option golang.Error :=
  none

/-- `kafka.ReaderConfig`, with the fields the repository sets. The other
fields keep their zero value: `Partition` is 0 and `GroupTopics` is nil. -/
structure ReaderConfig where
  Brokers : List String
  Topic : String
  GroupID : String
  MinBytes : Int
  MaxBytes : Int
deriving DecidableEq, Repr

/-- `(*ReaderConfig).Validate()` (reader.go) on such a configuration: nil (here
`none`) when it is accepted. The checks of `Partition` and of the backoff
bounds pass on the zero values and are left out; `len(config.Topic) == 0` is
written `config.Topic = ""`. The texts are those of kafka-go v0.4. -/
def ReaderConfig.Validate (config : ReaderConfig) : Option golang.Error :=
  if config.Brokers.length = 0 then
    some (.errorf "cannot create a new kafka reader with an empty list of broker addresses")
  else if config.MinBytes < 0 then
    some (.errorf ("invalid negative minimum batch size (min = " ++
      toString config.MinBytes ++ ")"))
  else if config.MaxBytes < 0 then
    some (.errorf ("invalid negative maximum batch size (max = " ++
      toString config.MaxBytes ++ ")"))
  else if config.GroupID ≠ "" ∧ config.Topic = "" then
    some (.errorf "either Topic or GroupTopics must be specified with GroupID")
  else if config.GroupID = "" ∧ config.Topic = "" then
    some (.errorf "cannot create a new kafka reader with an empty topic")
  else if config.MinBytes > config.MaxBytes then
    some (.errorf ("minimum batch size greater than the maximum (min = " ++
      toString config.MinBytes ++ ", max = " ++ toString config.MaxBytes ++ ")"))
  else
    none

/-- `kafka.Reader`: a reader and the configuration it was built from. -/
structure Reader where
  config : ReaderConfig
deriving DecidableEq, Repr

/-- `kafka.NewReader(config)`: it panics with the error of `config.Validate()`
when there is one (here `.error` of the value it panics with), and otherwise
returns the reader bound to `config`. The defaults it fills in and the
background work of the reader, which is where the broker is first contacted,
are outside the embedding. -/
def NewReader (config : ReaderConfig) : Except golang.Error Reader :=
  match config.Validate with
  | some err => .error err
  | none => .ok { config := config }

/-- `(*Reader).Close()` (reader.go): it stops the reader, waits for its
background work and returns nil; it has no other return. -/
def Reader.Close (_r : Reader) : Option golang.Error :=
  none

end kafkago

/-! ## Package `kafka`: producers, consumers and their registry (kafka.go) -/

namespace kafka

/-- `Producer` represents a Kafka producer. -/
structure Producer where
  writer : kafkago.Writer
deriving DecidableEq, Repr

/-- `Consumer` represents a Kafka consumer. -/
structure Consumer where
  reader : kafkago.Reader
deriving DecidableEq, Repr

/-- The objects allocated so far. A `*Producer` is the index of its object in
`producers`, a `*Consumer` the index of its object in `consumers`: two
pointers are the same instance exactly when they are the same index. -/
structure Heap where
  producers : List Producer
  consumers : List Consumer
deriving DecidableEq, Repr

/-- `NewProducer` creates a new Kafka producer: the pointer to the freshly
allocated object, and the heap that holds it. -/
def NewProducer (heap : Heap) (brokers : List String) (topic : String) : Nat × Heap :=
  let writer : kafkago.Writer := { Addr := brokers, Topic := topic, Balancer := "LeastBytes" }
  (heap.producers.length, { heap with producers := heap.producers ++ [{ writer := writer }] })

/-- `Close` closes the producer: the error of closing its writer. -/
def Producer.Close (p : Producer) : Option golang.Error :=
  p.writer.Close

/-- `NewConsumer` creates a new Kafka consumer: the pointer to the freshly
allocated object, and the heap that holds it. It panics when `kafka.NewReader`
does, before anything is allocated. -/
def NewConsumer (heap : Heap) (brokers : List String) (topic groupID : String) :
    Except golang.Error (Nat × Heap) :=
  match kafkago.NewReader
    { Brokers := brokers
      Topic := topic
      GroupID := groupID
      MinBytes := 10000 -- 10KB
      MaxBytes := 10000000 } with -- 10MB
  | .error value => .error value
  | .ok reader =>
    .ok (heap.consumers.length, { heap with consumers := heap.consumers ++ [{ reader := reader }] })

/-- `Close` closes the consumer: the error of closing its reader. -/
def Consumer.Close (c : Consumer) : Option golang.Error :=
  c.reader.Close

/-- `KafkaService` manages multiple producers and consumers. -/
structure KafkaService where
  brokers : List String
  producers : List (String × Nat)
  consumers : List (String × Nat)
deriving DecidableEq, Repr

/-- What the methods of a `*KafkaService` read and write: the service struct
behind the pointer, the heap, the lines logged, and the calls made so far of
`Close` on the writer of a producer and on the reader of a consumer. -/
structure World where
  k : KafkaService
  heap : Heap
  log : List golang.LogLine
  closedProducers : List Nat
  closedConsumers : List Nat
deriving DecidableEq, Repr

/-- `NewKafkaService` creates a new Kafka service. -/
def NewKafkaService (brokers : List String) : World :=
  { k := { brokers := brokers, producers := [], consumers := [] }
    heap := { producers := [], consumers := [] }
    log := []
    closedProducers := []
    closedConsumers := [] }

/-- The first step of `GetProducer` (kafka.go, line 106): the comma-ok lookup
of the topic in the map of producers. It changes nothing. -/
def lookupProducer (w : World) (topic : String) : Option Nat :=
  golang.mapLookup w.k.producers topic

/-- The second step of `GetProducer` (kafka.go, lines 110-113), taken when the
lookup found nothing: construct a producer, store it under the topic, log the
creation and return it. -/
def createProducer (w : World) (topic : String) : Nat × World :=
  let (producer, heap) := NewProducer w.heap w.k.brokers topic
  (producer,
    { w with
      heap := heap
      k := { w.k with producers := golang.mapStore w.k.producers topic producer }
      log := w.log ++ [⟨"Created Kafka producer for topic: %s", [.str topic]⟩] })

/-- `GetProducer` gets or creates a producer for a topic. -/
def GetProducer (w : World) (topic : String) : Nat × World :=
  match lookupProducer w topic with
  | some producer => (producer, w)
  | none => createProducer w topic

/-- `GetConsumer` gets or creates a consumer for a topic. It panics when
`NewConsumer` does, which is before the map is written or a line is logged. -/
def GetConsumer (w : World) (topic groupID : String) : Except golang.Error (Nat × World) :=
  let key := topic ++ "-" ++ groupID
  match golang.mapLookup w.k.consumers key with
  | some consumer => .ok (consumer, w)
  | none =>
    match NewConsumer w.heap w.k.brokers topic groupID with
    | .error value => .error value
    | .ok (consumer, heap) =>
      .ok (consumer,
        { w with
          heap := heap
          k := { w.k with consumers := golang.mapStore w.k.consumers key consumer }
          log := w.log ++
            [⟨"Created Kafka consumer for topic: %s, group: %s", [.str topic, .str groupID]⟩] })

/-- One pass of the first loop of `Close`: `producer.Close()`, which closes the
writer, and the log line when it fails. `writerClose` is the outcome of closing
the writer of each producer. -/
def closeProducer (writerClose : Nat → Option golang.Error) (w : World)
    (entry : String × Nat) : World :=
  let w := { w with closedProducers := w.closedProducers ++ [entry.2] }
  match writerClose entry.2 with
  | some err =>
    { w with
      log := w.log ++ [⟨"Error closing producer for topic %s: %v", [.str entry.1, .err err]⟩] }
  | none => w

/-- One pass of the second loop of `Close`: `consumer.Close()`, which closes
the reader, and the log line when it fails. -/
def closeConsumer (readerClose : Nat → Option golang.Error) (w : World)
    (entry : String × Nat) : World :=
  let w := { w with closedConsumers := w.closedConsumers ++ [entry.2] }
  match readerClose entry.2 with
  | some err =>
    { w with log := w.log ++ [⟨"Error closing consumer %s: %v", [.str entry.1, .err err]⟩] }
  | none => w

/-- `Close` closes all producers and consumers. Go leaves the order in which
`range` visits a map unspecified: `producerOrder` and `consumerOrder` are the
orders of the two loops, each a permutation of the entries of its map. The
error returned is nil. -/
def Close (writerClose readerClose : Nat → Option golang.Error)
    (producerOrder consumerOrder : List (String × Nat)) (w : World) :
    Option golang.Error × World :=
  let w := producerOrder.foldl (closeProducer writerClose) w
  let w := consumerOrder.foldl (closeConsumer readerClose) w
  (none, w)

/-- A call of one of the two lookup methods of the registry. -/
inductive Call
  | GetProducer (topic : String)
  | GetConsumer (topic groupID : String)
deriving DecidableEq, Repr

/-- A handle returned by the registry. -/
inductive Handle
  | producer (p : Nat)
  | consumer (c : Nat)
deriving DecidableEq, Repr

/-- The handle a call returns, and the world after it. A call that panics
returns no handle and leaves the world as it found it: the registry a caller
that recovers goes on with. -/
def Call.exec (w : World) : Call → Option Handle × World
  | .GetProducer topic =>
    (some (.producer (kafka.GetProducer w topic).1), (kafka.GetProducer w topic).2)
  | .GetConsumer topic groupID =>
    match kafka.GetConsumer w topic groupID with
    | .ok (consumer, w') => (some (.consumer consumer), w')
    | .error _ => (none, w)

/-- The world after a sequence of calls. -/
def run (w : World) (calls : List Call) : World :=
  calls.foldl (fun w call => (call.exec w).2) w

/-- The handles a sequence of calls returns, in order. -/
def returned (w : World) : List Call → List Handle
  | [] => []
  | call :: calls => (call.exec w).1.toList ++ returned (call.exec w).2 calls

/-- The invariant of the registry: no key occurs twice in a map, and the
pointers a map holds are exactly the objects allocated so far, each once (the
latest first). -/
structure World.WellFormed (w : World) : Prop where
  producerKeys : (w.k.producers.map Prod.fst).Nodup
  producerPtrs : w.k.producers.map Prod.snd = (List.range w.heap.producers.length).reverse
  consumerKeys : (w.k.consumers.map Prod.fst).Nodup
  consumerPtrs : w.k.consumers.map Prod.snd = (List.range w.heap.consumers.length).reverse
  closedProducers : w.closedProducers = []
  closedConsumers : w.closedConsumers = []

/-- The object behind a handle has been allocated. -/
def World.allocated (w : World) : Handle → Prop
  | .producer p => p < w.heap.producers.length
  | .consumer c => c < w.heap.consumers.length

/-- The number of calls of `Close` made so far on the object behind a handle. -/
def World.closeCalls (w : World) : Handle → Nat
  | .producer p => w.closedProducers.count p
  | .consumer c => w.closedConsumers.count c

/-- The line `Close` logs when closing the producer of an entry fails. -/
def producerCloseFailure (writerClose : Nat → Option golang.Error) (entry : String × Nat) :
    Option golang.LogLine :=
  (writerClose entry.2).map fun err =>
    ⟨"Error closing producer for topic %s: %v", [.str entry.1, .err err]⟩

/-- The line `Close` logs when closing the consumer of an entry fails. -/
def consumerCloseFailure (readerClose : Nat → Option golang.Error) (entry : String × Nat) :
    Option golang.LogLine :=
  (readerClose entry.2).map fun err =>
    ⟨"Error closing consumer %s: %v", [.str entry.1, .err err]⟩

/-- The topics a sequence of calls asks a producer for. -/
def requestedTopics : List Call → List String
  | [] => []
  | .GetProducer topic :: calls => topic :: requestedTopics calls
  | .GetConsumer _ _ :: calls => requestedTopics calls

/-- A caller of `GetProducer`, by where it stands: about to look the topic up,
past a lookup that found nothing and about to construct, or returned with a
producer. -/
inductive Caller
  | entered (topic : String)
  | absent (topic : String)
  | returned (producer : Nat)
deriving DecidableEq, Repr

/-- The next step of a caller of `GetProducer`: the lookup, then, when it found
nothing, the construction. Nothing in the source makes the two one step. -/
def Caller.step (w : World) : Caller → Caller × World
  | .entered topic =>
    match lookupProducer w topic with
    | some producer => (.returned producer, w)
    | none => (.absent topic, w)
  | .absent topic => (.returned (createProducer w topic).1, (createProducer w topic).2)
  | .returned producer => (.returned producer, w)

/-- Callers of `GetProducer` running side by side on one registry: `schedule`
names, step after step, the caller that takes its next step. -/
def interleave (w : World) (callers : List Caller) : List Nat → List Caller × World
  | [] => (callers, w)
  | i :: schedule =>
    match callers.get? i with
    | none => interleave w callers schedule
    | some caller => interleave (caller.step w).2 (callers.set i (caller.step w).1) schedule

end kafka

/-! ## Package `time`: the RFC 3339 form of an instant -/

namespace time

/-- A number in decimal with at least `width` digits, zeros in front. -/
def pad (width n : Nat) : String :=
  String.mk (List.replicate (width - (toString n).length) '0') ++ toString n

/-- The year, month and day of the proleptic Gregorian calendar, `days` days
after 1 January 1970. -/
def civil (days : Int) : Int × Nat × Nat :=
  let z := days + 719468
  let era := z / 146097
  let doe := (z % 146097).toNat
  let yoe := (doe - doe / 1460 + doe / 36524 - doe / 146096) / 365
  let doy := doe - (365 * yoe + yoe / 4 - yoe / 100)
  let mp := (5 * doy + 2) / 153
  let d := doy - (153 * mp + 2) / 5 + 1
  let m := if mp < 10 then mp + 3 else mp - 9
  let y := (yoe : Int) + era * 400
  (if m ≤ 2 then y + 1 else y, m, d)

/-- The fraction of a second as the layout `.999999999` writes it: nothing for
zero, else a point and the nine digits without their trailing zeros. -/
def fraction (nanos : Nat) : String :=
  if nanos = 0 then ""
  else "." ++ String.mk ((pad 9 nanos).data.reverse.dropWhile (fun c => c == '0')).reverse

/-- `t.Format(time.RFC3339Nano)` for an instant whose location is UTC and whose
year has four digits. The location of a `time.Time` is not embedded: an
instant in another zone is written with its local date and hour and the offset
of the zone in place of the final Z. -/
def formatRFC3339Nano (t : Time) : String :=
  let secs := t / Second
  let nanos := (t % Second).toNat
  let date := civil (secs / 86400)
  let sod := (secs % 86400).toNat
  pad 4 date.1.toNat ++ "-" ++ pad 2 date.2.1 ++ "-" ++ pad 2 date.2.2 ++ "T" ++
    pad 2 (sod / 3600) ++ ":" ++ pad 2 (sod / 60 % 60) ++ ":" ++ pad 2 (sod % 60) ++
    fraction nanos ++ "Z"

/-- `t.MarshalJSON()` for an instant whose location is UTC: the RFC 3339 form
with nanoseconds, as a JSON string; an error when the year is outside
[0,9999]. -/
def MarshalJSON (t : Time) : Except golang.Error String :=
  let year := (civil (t / Second / 86400)).1
  if year < 0 ∨ year ≥ 10000 then
    .error (.errorf "Time.MarshalJSON: year outside of range [0,9999]")
  else
    .ok (formatRFC3339Nano t)

end time

/-! ## Go runtime: dynamic values -/

namespace golang

/-- The dynamic value of an `interface{}`, among nil, booleans, integers,
strings, the floating-point number NaN, channels and functions. -/
inductive Dynamic
  | nil
  | bool (b : Bool)
  | int (n : Int)
  | string (s : String)
  /-- The `float64` value `math.NaN()`. -/
  | float64NaN
  /-- A value of type `chan int`. -/
  | chan
  /-- A value of type `func()`. -/
  | func
deriving DecidableEq, Repr

end golang

/-! ## Package `uuid` (github.com/google/uuid): random identifiers -/

namespace uuid

/-- `uuid.New()`: a version 4 identifier. `random` holds the 16 bytes read from
the random source; byte 6 gets the version and byte 8 the variant. -/
def New (random : List Nat) : List Nat :=
  (List.range 16).map fun i =>
    let b := random.getD i 0 % 256
    if i = 6 then (b &&& 0x0f) ||| 0x40
    else if i = 8 then (b &&& 0x3f) ||| 0x80
    else b

/-- One hexadecimal digit, in lower case. -/
def hexDigit (n : Nat) : Char :=
  if n < 10 then Char.ofNat (48 + n) else Char.ofNat (87 + n)

/-- The two hexadecimal digits of each byte. -/
def hex (bytes : List Nat) : String :=
  String.mk (bytes.flatMap fun b => [hexDigit (b / 16 % 16), hexDigit (b % 16)])

/-- `u.String()`: the form xxxxxxxx-xxxx-xxxx-xxxx-xxxxxxxxxxxx. -/
def String (u : List Nat) : String :=
  hex (u.take 4) ++ "-" ++ hex ((u.drop 4).take 2) ++ "-" ++ hex ((u.drop 6).take 2) ++ "-" ++
    hex ((u.drop 8).take 2) ++ "-" ++ hex (u.drop 10)

end uuid

/-! ## Package `encoding/json`: the encoding of a struct -/

namespace json

/-- A JSON text, by its syntax tree; the members of an object are in the
order in which they are written. -/
inductive Value
  | null
  | bool (b : Bool)
  | number (literal : String)
  | string (s : String)
  | array (elements : List Value)
  | object (members : List (String × Value))

/-- What a field of the event structs holds: a string, a `time.Time`, or an
`interface{}` with a dynamic value, of a type `α` left open. -/
inductive FieldValue (α : Type)
  | string (s : String)
  | time (t : time.Time)
  | dynamic (v : α)

/-- A struct field as the encoder sees it: the key its `json` tag names and
its value. No tag of the event envelope has an option such as `omitempty`. -/
structure Field (α : Type) where
  key : String
  value : FieldValue α

/-- The encodings `encoding/json` is not embedded for: `Time.MarshalJSON`
and the encoding of the dynamic value of an `interface{}`, each of which can
fail. -/
structure Encoder (α : Type) where
  time : time.Time → Except golang.Error Value
  dynamic : α → Except golang.Error Value

/-- The encoding of one field value. -/
def encodeValue {α : Type} (enc : Encoder α) : FieldValue α → Except golang.Error Value
  | .string s => .ok (.string s)
  | .time t => enc.time t
  | .dynamic v => enc.dynamic v

/-- The members of the object a struct is encoded as: one for each field, in
the order of declaration; the first field that fails makes the whole fail. -/
def encodeFields {α : Type} (enc : Encoder α) :
    List (Field α) → Except golang.Error (List (String × Value))
  | [] => .ok []
  | field :: fields =>
    match encodeValue enc field.value with
    | .error err => .error err
    | .ok v =>
      match encodeFields enc fields with
      | .error err => .error err
      | .ok members => .ok ((field.key, v) :: members)

/-- `json.Marshal(v)` for a pointer to a struct with the given fields. -/
def Marshal {α : Type} (enc : Encoder α) (fields : List (Field α)) : Except golang.Error Value :=
  match encodeFields enc fields with
  | .error err => .error err
  | .ok members => .ok (.object members)

/-- The keys of a JSON object, in order; none for another value. -/
def Value.keys : Value → Option (List String)
  | .object members => some (members.map Prod.fst)
  | _ => none

end json

/-! ## Package `models`: the event envelope (events.go, lines 10-31) -/

namespace models

/-- `EventMessage` represents a generic event message for Kafka; `α` is the
type of the dynamic value `Data` holds. -/
structure EventMessage (α : Type) where
  EventType : String
  EventID : String
  Timestamp : time.Time
  Data : α

/-- The fields of `EventMessage` with the keys of their `json` tags, in the
order of declaration. -/
def EventMessage.fields {α : Type} (e : EventMessage α) : List (json.Field α) :=
  [ { key := "eventType", value := .string e.EventType },
    { key := "eventId", value := .string e.EventID },
    { key := "timestamp", value := .time e.Timestamp },
    { key := "data", value := .dynamic e.Data } ]

/-- `NewEventMessage` creates a new event message; `random` is what
`uuid.New()` reads from the random source and `now` the reading of
`time.Now()`. -/
def NewEventMessage {α : Type} (random : List Nat) (now : time.Time) (eventType : String)
    (data : α) : EventMessage α :=
  { EventType := eventType
    EventID := uuid.String (uuid.New random)
    Timestamp := now
    Data := data }

/-- `ToJSON` converts the event message to JSON. -/
def EventMessage.ToJSON {α : Type} (enc : json.Encoder α) (e : EventMessage α) :
    Except golang.Error json.Value :=
  json.Marshal enc e.fields

end models

/-! ## The encoder of `encoding/json` -/

namespace json

/-- The encoding of the dynamic value of an `interface{}` (encode.go): nil is
written null, a boolean, an integer and a string as themselves; NaN is refused
with an `UnsupportedValueError`, a channel and a function with an
`UnsupportedTypeError`. -/
def encodeDynamic : golang.Dynamic → Except golang.Error Value
  | .nil => .ok .null
  | .bool b => .ok (.bool b)
  | .int n => .ok (.number (toString n))
  | .string s => .ok (.string s)
  | .float64NaN => .error (.errorf "json: unsupported value: NaN")
  | .chan => .error (.errorf "json: unsupported type: chan int")
  | .func => .error (.errorf "json: unsupported type: func()")

/-- The encoding of a `time.Time` field: what its `MarshalJSON` returns, and
its error inside a `MarshalerError`. -/
def encodeTime (t : time.Time) : Except golang.Error Value :=
  match time.MarshalJSON t with
  | .ok s => .ok (.string s)
  | .error err => .error (.wrap "json: error calling MarshalJSON for type time.Time" err)

/-- The encoder of `encoding/json` for instants in UTC and payloads that are
dynamic values of `golang.Dynamic`. -/
def Encoder.utc : Encoder golang.Dynamic :=
  { time := encodeTime
    dynamic := encodeDynamic }

end json

/-! ## Go strings by their bytes -/

namespace utf8

/-- `utf8.RuneError`, the replacement character U+FFFD. -/
def RuneError : Nat := 0xFFFD

/-- `utf8.DecodeRune(p)`: the first rune of `p` and its width in bytes; when
the encoding is not valid, `RuneError` and the width 1 (0 for an empty `p`).
Encodings that are too long, surrogate halves and runes above U+10FFFF are not
valid. -/
def DecodeRune : List Nat → Nat × Nat
  | [] => (RuneError, 0)
  | s0 :: rest =>
    if s0 < 0x80 then (s0, 1)
    else if s0 < 0xC2 then (RuneError, 1)
    else if s0 < 0xE0 then
      match rest with
      | s1 :: _ =>
        if 0x80 ≤ s1 ∧ s1 ≤ 0xBF then (s0 % 32 * 64 + s1 % 64, 2) else (RuneError, 1)
      | _ => (RuneError, 1)
    else if s0 < 0xF0 then
      match rest with
      | s1 :: s2 :: _ =>
        if (if s0 = 0xE0 then 0xA0 else 0x80) ≤ s1 ∧ s1 ≤ (if s0 = 0xED then 0x9F else 0xBF) ∧
            0x80 ≤ s2 ∧ s2 ≤ 0xBF then
          (s0 % 16 * 4096 + s1 % 64 * 64 + s2 % 64, 3)
        else (RuneError, 1)
      | _ => (RuneError, 1)
    else if s0 < 0xF5 then
      match rest with
      | s1 :: s2 :: s3 :: _ =>
        if (if s0 = 0xF0 then 0x90 else 0x80) ≤ s1 ∧ s1 ≤ (if s0 = 0xF4 then 0x8F else 0xBF) ∧
            0x80 ≤ s2 ∧ s2 ≤ 0xBF ∧ 0x80 ≤ s3 ∧ s3 ≤ 0xBF then
          (s0 % 8 * 262144 + s1 % 64 * 4096 + s2 % 64 * 64 + s3 % 64, 4)
        else (RuneError, 1)
      | _ => (RuneError, 1)
    else (RuneError, 1)

end utf8

namespace json

/-- The runes `json.Marshal` writes for a Go string with the bytes `s`
(encode.go, `appendString`): rune after rune as `utf8.DecodeRune` reads them,
so that every byte that does not begin a valid encoding is written as U+FFFD.
`fuel` bounds the number of runes. -/
def coerceRunes : Nat → List Nat → List Char
  | 0, _ => []
  | _ + 1, [] => []
  | fuel + 1, s0 :: rest =>
    Char.ofNat (utf8.DecodeRune (s0 :: rest)).1 ::
      coerceRunes fuel ((s0 :: rest).drop (utf8.DecodeRune (s0 :: rest)).2)

/-- The string that a Go string with the bytes `s` is read back as once it has
been written by `json.Marshal`: the string itself when it is valid UTF-8, and
otherwise the string with U+FFFD in place of each byte that is not part of a
valid encoding. -/
def coerceString (s : List Nat) : String :=
  String.mk (coerceRunes s.length s)

end json

namespace utf8

/-- `utf8.Valid(s)` for the Go string with the bytes `s`, stated through the
coercion: a string is valid UTF-8 exactly when writing U+FFFD for every byte
that is not part of a valid encoding leaves its bytes as they are. -/
def Valid (s : List Nat) : Prop :=
  golang.bytes (json.coerceString s) = s

instance (s : List Nat) : Decidable (Valid s) := by
  unfold Valid
  exact inferInstance

end utf8

namespace auth

end auth

/-! ## A platform to evaluate on -/

/-- A platform on which every definition evaluates: the digest of a byte
string is the byte string itself and the signing string is the algorithm name,
a dot and the user identifier. It serves to run the definitions on concrete
inputs; the general statements hold for every platform. -/
def Platform.demo : Platform :=
  { digest := fun _ b => b
    signingString := fun header claims => header.alg.getD "" ++ "." ++ claims.UserID }

/-! ## The rank table of the specification -/

namespace Spec

/-- The rank of a tier in the words of the specification: `level_1` to
`level_5` rank 1 to 5, every other string ranks 0. -/
def rank (tier : String) : Nat :=
  if tier = "level_1" then 1
  else if tier = "level_2" then 2
  else if tier = "level_3" then 3
  else if tier = "level_4" then 4
  else if tier = "level_5" then 5
  else 0

/-- The five recognised tier strings. -/
def isTier (tier : String) : Prop :=
  tier = "level_1" ∨ tier = "level_2" ∨ tier = "level_3" ∨ tier = "level_4" ∨ tier = "level_5"

instance (tier : String) : Decidable (isTier tier) := by
  unfold isTier
  exact inferInstance

end Spec

/-! ## Permission levels: lemmas -/

/-- Looking a string up in the token layer's table yields its rank. -/
theorem auth.mapIndex_levels_eq_rank (s : String) :
    golang.mapIndex auth.levels s = (Spec.rank s : Int) := by
  unfold golang.mapIndex auth.levels Spec.rank auth.AccessLevel1 auth.AccessLevel2
    auth.AccessLevel3 auth.AccessLevel4 auth.AccessLevel5
  by_cases h1 : s = "level_1"
  · subst h1; decide
  by_cases h2 : s = "level_2"
  · subst h2; decide
  by_cases h3 : s = "level_3"
  · subst h3; decide
  by_cases h4 : s = "level_4"
  · subst h4; decide
  by_cases h5 : s = "level_5"
  · subst h5; decide
  have e1 : (s == "level_1") = false := beq_eq_false_iff_ne.mpr h1
  have e2 : (s == "level_2") = false := beq_eq_false_iff_ne.mpr h2
  have e3 : (s == "level_3") = false := beq_eq_false_iff_ne.mpr h3
  have e4 : (s == "level_4") = false := beq_eq_false_iff_ne.mpr h4
  have e5 : (s == "level_5") = false := beq_eq_false_iff_ne.mpr h5
  simp [List.lookup, h1, h2, h3, h4, h5, e1, e2, e3, e4, e5]

/-- Looking a string up in the models layer's table yields its rank. -/
theorem models.mapIndex_userLevels_eq_rank (s : String) :
    golang.mapIndex models.levels s = (Spec.rank s : Int) := by
  unfold golang.mapIndex models.levels Spec.rank
  by_cases h1 : s = "level_1"
  · subst h1; decide
  by_cases h2 : s = "level_2"
  · subst h2; decide
  by_cases h3 : s = "level_3"
  · subst h3; decide
  by_cases h4 : s = "level_4"
  · subst h4; decide
  by_cases h5 : s = "level_5"
  · subst h5; decide
  have e1 : (s == "level_1") = false := beq_eq_false_iff_ne.mpr h1
  have e2 : (s == "level_2") = false := beq_eq_false_iff_ne.mpr h2
  have e3 : (s == "level_3") = false := beq_eq_false_iff_ne.mpr h3
  have e4 : (s == "level_4") = false := beq_eq_false_iff_ne.mpr h4
  have e5 : (s == "level_5") = false := beq_eq_false_iff_ne.mpr h5
  simp [List.lookup, h1, h2, h3, h4, h5, e1, e2, e3, e4, e5]

/-- The rank of a recognised tier is at least 1. -/
theorem Spec.rank_pos_of_isTier (t : String) (h : Spec.isTier t) : 1 ≤ Spec.rank t := by
  rcases h with h | h | h | h | h <;> subst h <;> decide

/-- A string outside the five tiers ranks 0. -/
theorem Spec.rank_eq_zero_of_not_isTier (t : String) (h : ¬ Spec.isTier t) : Spec.rank t = 0 := by
  unfold Spec.isTier at h
  simp only [not_or] at h
  obtain ⟨h1, h2, h3, h4, h5⟩ := h
  simp [Spec.rank, h1, h2, h3, h4, h5]

/-! ## Permission levels: the claims -/

/-- C1: for every pair of strings, `auth.HasPermission userLevel requiredLevel`
is true exactly when the rank of the user level is at least the rank of the
required level; level_2 does not satisfy level_3 and does satisfy level_1. -/
theorem C1_hasPermission_iff_rank :
    (∀ userLevel requiredLevel : String,
      auth.HasPermission userLevel requiredLevel = true ↔
        Spec.rank userLevel ≥ Spec.rank requiredLevel) ∧
    auth.HasPermission "level_2" "level_3" = false ∧
    auth.HasPermission "level_2" "level_1" = true := by
  refine ⟨?_, by decide, by decide⟩
  intro userLevel requiredLevel
  simp only [auth.HasPermission, auth.mapIndex_levels_eq_rank, decide_eq_true_eq, ge_iff_le,
    Nat.cast_le]

/-- C2: a user level outside level_1..level_5 (the empty string included)
never satisfies a required tier in level_1..level_5. -/
theorem C2_unknown_user_level_denied (userLevel requiredLevel : String)
    (hu : ¬ Spec.isTier userLevel) (hr : Spec.isTier requiredLevel) :
    auth.HasPermission userLevel requiredLevel = false := by
  have h0 := Spec.rank_eq_zero_of_not_isTier userLevel hu
  have h1 := Spec.rank_pos_of_isTier requiredLevel hr
  simp only [auth.HasPermission, auth.mapIndex_levels_eq_rank, h0, decide_eq_false_iff_not, ge_iff_le,
    Nat.cast_le]
  omega

/-- C2 at the empty user level against the lowest tier. -/
theorem C2_unknown_user_level_denied_witness :
    ¬ Spec.isTier "" ∧ Spec.isTier "level_1" ∧
    auth.HasPermission "" "level_1" = false :=
  ⟨by decide, by decide, C2_unknown_user_level_denied "" "level_1" (by decide) (by decide)⟩

/-- C3: the models-layer comparison and the token-layer comparison agree on
every user and every required level. -/
theorem C3_models_agrees_with_auth (u : models.User) (requiredLevel : String) :
    u.HasPermission requiredLevel = auth.HasPermission u.AccessLevel requiredLevel := by
  simp only [models.User.HasPermission, auth.HasPermission, auth.mapIndex_levels_eq_rank,
    models.mapIndex_userLevels_eq_rank]

/-! ## Token service: lemmas -/

/-- Rounding an integer down to a multiple of 10^9 does not increase it. -/
theorem Int.floorSecond_le (t : Int) : t - t % 1000000000 ≤ t := by
  omega

/-- Rounding an integer down to a multiple of 10^9 loses less than 10^9. -/
theorem Int.lt_floorSecond_add (t : Int) : t < t - t % 1000000000 + 1000000000 := by
  omega

/-- From `a + b < n + s` and `s ≤ b` follows `a < n`. -/
theorem Int.lt_of_add_lt_add_of_le (a b n s : Int) (h : a + b < n + s) (hs : s ≤ b) : a < n := by
  omega

/-- Truncation to whole seconds, relative to the epoch. -/
theorem time.Truncate_Second (t : time.Time) :
    time.Truncate t time.Second = t - t % 1000000000 := by
  unfold time.Truncate time.Second time.unixToInternal
  rw [if_neg (by decide)]
  rw [Int.add_mul_emod_self]

/-- A numeric date is at most the instant it was built from. -/
theorem jwt.NewNumericDate_le (t : time.Time) : (jwt.NewNumericDate t).Time ≤ t := by
  unfold jwt.NewNumericDate jwt.TimePrecision
  rw [time.Truncate_Second]
  exact Int.floorSecond_le t

/-- A numeric date is less than one second before the instant it was built from. -/
theorem jwt.lt_NewNumericDate_add (t : time.Time) :
    t < (jwt.NewNumericDate t).Time + time.Second := by
  unfold jwt.NewNumericDate jwt.TimePrecision
  rw [time.Truncate_Second]
  exact Int.lt_floorSecond_add t

/-- `GenerateToken` never fails: it returns the HS256 serialisation of the
claims it built, signed with the service's secret. -/
theorem auth.JWTService.GenerateToken_eq (P : Platform) (j : auth.JWTService)
    (nowExp nowIat nowNbf : time.Time) (userID username role accessLevel : String)
    (expiration : time.Duration) :
    j.GenerateToken P nowExp nowIat nowNbf userID username role accessLevel expiration =
      .ok (.compact
        (P.signingString ⟨some "JWT", some "HS256"⟩
          (j.newClaims nowExp nowIat nowNbf userID username role accessLevel expiration))
        ⟨some "JWT", some "HS256"⟩
        (j.newClaims nowExp nowIat nowNbf userID username role accessLevel expiration)
        (some (hmac.Sum P .SHA256 (golang.bytes j.secretKey)
          (golang.bytes (P.signingString ⟨some "JWT", some "HS256"⟩
            (j.newClaims nowExp nowIat nowNbf userID username role accessLevel expiration)))))) := by
  rfl

/-- What `ValidateToken` does with a compact token whose header names an HMAC
method: it compares the signature with the MAC under its own secret, then
validates the claims. -/
theorem auth.JWTService.ValidateToken_compact (P : Platform) (j : auth.JWTService)
    (now : time.Time) (text : String) (header : jwt.Header) (claims : auth.JWTClaims)
    (sig : List Nat) (h : crypto.Hash)
    (hm : (jwt.TokenString.compact text header claims (some sig)).method.bind
      jwt.SigningMethod.asHMAC = some h) :
    j.ValidateToken P now (.compact text header claims (some sig)) =
      if sig = hmac.Sum P h (golang.bytes j.secretKey) (golang.bytes text) then
        match jwt.NewValidator.Validate now claims with
        | none => .ok claims
        | some err =>
          .error (.wrap "failed to parse token"
            (jwt.newError "" (.sentinel .ErrTokenInvalidClaims) [err]))
      else
        .error (.wrap "failed to parse token"
          (jwt.newError "" (.sentinel .ErrTokenSignatureInvalid)
            [.sentinel .ErrSignatureInvalid])) := by
  unfold jwt.TokenString.method at hm
  cases halg : header.alg with
  | none => simp [halg] at hm
  | some alg =>
    simp only [halg] at hm
    cases hmeth : jwt.GetSigningMethod alg with
    | none => simp [hmeth] at hm
    | some m =>
      simp only [hmeth, Option.some_bind] at hm
      unfold auth.JWTService.ValidateToken jwt.ParseWithClaims jwt.ParseUnverified
      simp only [halg, hmeth, auth.JWTService.keyFunc, hm, jwt.SigningMethod.Verify, hmac.Equal]
      by_cases hs : sig = hmac.Sum P h (golang.bytes j.secretKey) (golang.bytes text)
      · simp only [hs, decide_True, if_true]
        cases hv : jwt.NewValidator.Validate now claims <;> simp
      · simp [hs]

/-- Wrapping an error keeps what `errors.Is` says about it. -/
theorem golang.Error.Is_wrap (msg : String) (err : golang.Error) (target : jwt.Sentinel) :
    (golang.Error.wrap msg err).Is target = err.Is target := rfl

/-- The claims validator accepts claims whose expiry, when present, is after
`now` and whose not-before, when present, is not after `now`. -/
theorem jwt.Validate_eq_none (now : time.Time) (claims : auth.JWTClaims)
    (hexp : ∀ e, claims.RegisteredClaims.ExpiresAt = some e → now < e.Time)
    (hnbf : ∀ n, claims.RegisteredClaims.NotBefore = some n → n.Time ≤ now) :
    jwt.NewValidator.Validate now claims = none := by
  have h1 : jwt.NewValidator.verifyExpiresAt claims now false = none := by
    unfold jwt.Validator.verifyExpiresAt
    cases he : claims.RegisteredClaims.ExpiresAt with
    | none => rfl
    | some e =>
      have := hexp e he
      simp [jwt.errorIfFalse, time.Before, time.Add, jwt.NewValidator, this]
  have h2 : jwt.NewValidator.verifyNotBefore claims now false = none := by
    unfold jwt.Validator.verifyNotBefore
    cases hn : claims.RegisteredClaims.NotBefore with
    | none => rfl
    | some n =>
      have := hnbf n hn
      simp [jwt.errorIfFalse, time.Before, time.Add, jwt.NewValidator, this]
  simp only [jwt.Validator.Validate, h1, h2]
  rfl

/-- Joining further errors onto an error keeps every kind it already has. -/
theorem jwt.Is_foldl_join (rest : List golang.Error) (first : golang.Error)
    (target : jwt.Sentinel) (h : first.Is target = true) :
    (rest.foldl golang.Error.join first).Is target = true := by
  induction rest generalizing first with
  | nil => exact h
  | cons e es ih =>
    apply ih
    simp [golang.Error.Is, h]

/-- The claims validator reports claims whose expiry is not after `now` as
expired. -/
theorem jwt.Validate_expired (now : time.Time) (claims : auth.JWTClaims) (e : jwt.NumericDate)
    (he : claims.RegisteredClaims.ExpiresAt = some e) (hlate : e.Time ≤ now) :
    ∃ err, jwt.NewValidator.Validate now claims = some err ∧
      err.Is .ErrTokenExpired = true := by
  have h1 : jwt.NewValidator.verifyExpiresAt claims now false =
      some (.sentinel .ErrTokenExpired) := by
    unfold jwt.Validator.verifyExpiresAt
    have hn : ¬ now < e.Time := not_lt.mpr hlate
    simp [he, jwt.errorIfFalse, time.Before, time.Add, jwt.NewValidator, hn]
  unfold jwt.Validator.Validate
  simp only [h1, Option.toList, List.singleton_append, List.cons_append, List.nil_append]
  refine ⟨_, rfl, ?_⟩
  apply jwt.Is_foldl_join
  rfl

/-- The two secrets of the C7 counterexample fill the same HMAC key block. -/
theorem hmac.Sum_zero_padded_key (P : Platform) (h : crypto.Hash) (message : List Nat) :
    hmac.Sum P h (golang.bytes "k") message = hmac.Sum P h (golang.bytes "k\x00") message := by
  have hk : hmac.keyBlock P h (golang.bytes "k") = hmac.keyBlock P h (golang.bytes "k\x00") := by
    cases h <;> rfl
  unfold hmac.Sum
  rw [hk]

/-- A service validating a token it generated itself: the signature matches,
so the outcome is that of the claims validator. -/
theorem auth.JWTService.ValidateToken_own (P : Platform) (j : auth.JWTService)
    (nowExp nowIat nowNbf : time.Time) (userID username role accessLevel : String)
    (expiration : time.Duration) (now : time.Time) (tok : jwt.TokenString)
    (hgen : j.GenerateToken P nowExp nowIat nowNbf userID username role accessLevel expiration =
      .ok tok) :
    j.ValidateToken P now tok =
      match jwt.NewValidator.Validate now
        (j.newClaims nowExp nowIat nowNbf userID username role accessLevel expiration) with
      | none => .ok (j.newClaims nowExp nowIat nowNbf userID username role accessLevel expiration)
      | some err =>
        .error (.wrap "failed to parse token"
          (jwt.newError "" (.sentinel .ErrTokenInvalidClaims) [err])) := by
  rw [auth.JWTService.GenerateToken_eq] at hgen
  injection hgen with hgen
  subst hgen
  refine (auth.JWTService.ValidateToken_compact P j now _ _ _ _ .SHA256 ?_).trans ?_
  · rfl
  · simp

/-- A service validating a token it generated itself inside the token's
window, from the not-before instant up to but excluding the expires-at
instant: the claims are returned. -/
theorem auth.JWTService.ValidateToken_own_valid (P : Platform) (j : auth.JWTService)
    (nowExp nowIat nowNbf : time.Time) (userID username role accessLevel : String)
    (ttl : time.Duration) (now : time.Time) (tok : jwt.TokenString)
    (hgen : j.GenerateToken P nowExp nowIat nowNbf userID username role accessLevel ttl = .ok tok)
    (hnbf : (jwt.NewNumericDate nowNbf).Time ≤ now)
    (hexp : now < (jwt.NewNumericDate (time.Add nowExp ttl)).Time) :
    j.ValidateToken P now tok =
      .ok (j.newClaims nowExp nowIat nowNbf userID username role accessLevel ttl) := by
  rw [auth.JWTService.ValidateToken_own P j nowExp nowIat nowNbf userID username role accessLevel
    ttl now tok hgen]
  rw [jwt.Validate_eq_none]
  · intro e he
    simp only [auth.JWTService.newClaims, Option.some.injEq] at he
    subst he
    exact hexp
  · intro n hn
    simp only [auth.JWTService.newClaims, Option.some.injEq] at hn
    subst hn
    exact hnbf

/-- A token generated and validated at one instant, with a lifetime of at
least one second, passes validation. -/
theorem auth.JWTService.ValidateToken_fresh (P : Platform) (j : auth.JWTService)
    (now : time.Time) (userID username role accessLevel : String) (ttl : time.Duration)
    (httl : time.Second ≤ ttl) (tok : jwt.TokenString)
    (hgen : j.GenerateToken P now now now userID username role accessLevel ttl = .ok tok) :
    j.ValidateToken P now tok =
      .ok (j.newClaims now now now userID username role accessLevel ttl) :=
  auth.JWTService.ValidateToken_own_valid P j now now now userID username role accessLevel ttl
    now tok hgen (jwt.NewNumericDate_le now)
    (Int.lt_of_add_lt_add_of_le now ttl _ time.Second
      (jwt.lt_NewNumericDate_add (time.Add now ttl)) httl)

/-- A service validating a token it generated itself at or after the token's
expires-at: the token is rejected as expired. -/
theorem auth.JWTService.ValidateToken_own_expired (P : Platform) (j : auth.JWTService)
    (nowExp nowIat nowNbf : time.Time) (userID username role accessLevel : String)
    (ttl : time.Duration) (now : time.Time) (tok : jwt.TokenString)
    (hgen : j.GenerateToken P nowExp nowIat nowNbf userID username role accessLevel ttl = .ok tok)
    (hlate : (jwt.NewNumericDate (time.Add nowExp ttl)).Time ≤ now) :
    ∃ err, j.ValidateToken P now tok = .error err ∧ err.Is .ErrTokenExpired = true := by
  rw [auth.JWTService.ValidateToken_own P j nowExp nowIat nowNbf userID username role accessLevel
    ttl now tok hgen]
  obtain ⟨err, herr, his⟩ := jwt.Validate_expired now
    (j.newClaims nowExp nowIat nowNbf userID username role accessLevel ttl)
    (jwt.NewNumericDate (time.Add nowExp ttl)) rfl hlate
  rw [herr]
  refine ⟨_, rfl, ?_⟩
  simp only [golang.Error.Is_wrap, jwt.newError, List.foldl, golang.Error.Is, his, Bool.or_true]

/-- `ValidateToken` returns an error for every token whose method the key
function refuses. -/
theorem auth.JWTService.ValidateToken_not_hmac (P : Platform) (j : auth.JWTService)
    (now : time.Time) (tokenString : jwt.TokenString)
    (hm : tokenString.method.bind jwt.SigningMethod.asHMAC = none) :
    ∃ err, j.ValidateToken P now tokenString = .error err := by
  cases tokenString with
  | malformed raw => exact ⟨_, rfl⟩
  | compact text header claims signature =>
    obtain ⟨typ, alg⟩ := header
    cases alg with
    | none => exact ⟨_, rfl⟩
    | some alg =>
      simp only [jwt.TokenString.method] at hm
      simp only [auth.JWTService.ValidateToken, jwt.ParseWithClaims, jwt.ParseUnverified]
      cases hmeth : jwt.GetSigningMethod alg with
      | none => exact ⟨_, rfl⟩
      | some m =>
        simp only [hmeth, Option.some_bind] at hm
        cases signature with
        | none => exact ⟨_, rfl⟩
        | some sig =>
          simp only [auth.JWTService.keyFunc, hm]
          exact ⟨_, rfl⟩

/-- C5 (amended): `ValidateToken` rejects every token whose signing algorithm
is not one of the HMAC family HS256, HS384, HS512 (a missing or unregistered
algorithm included), whatever its signature. -/
theorem C5_rejects_outside_hmac_family (P : Platform) (j : auth.JWTService) (now : time.Time)
    (tokenString : jwt.TokenString)
    (h256 : tokenString.method ≠ some .SigningMethodHS256)
    (h384 : tokenString.method ≠ some .SigningMethodHS384)
    (h512 : tokenString.method ≠ some .SigningMethodHS512) :
    ∃ err, j.ValidateToken P now tokenString = .error err := by
  apply auth.JWTService.ValidateToken_not_hmac
  cases hm : tokenString.method with
  | none => rfl
  | some m =>
    rw [hm] at h256 h384 h512
    cases m <;> first | rfl | exact absurd rfl h256 | exact absurd rfl h384 | exact absurd rfl h512

/-- C5 at a token whose header names the algorithm `none` and whose signature
is empty. -/
theorem C5_rejects_outside_hmac_family_witness :
    (jwt.TokenString.compact "e30.e30" ⟨some "JWT", some "none"⟩
        ((auth.NewJWTService "secret" "warehouse").newClaims 0 0 0 "USR-2024-001" "operator"
          "admin" "level_5" 3600000000000) (some [])).method = some .SigningMethodNone ∧
    ∃ err, (auth.NewJWTService "secret" "warehouse").ValidateToken Platform.demo 1000000000
      (.compact "e30.e30" ⟨some "JWT", some "none"⟩
        ((auth.NewJWTService "secret" "warehouse").newClaims 0 0 0 "USR-2024-001" "operator"
          "admin" "level_5" 3600000000000) (some [])) = .error err :=
  ⟨by decide, C5_rejects_outside_hmac_family Platform.demo _ _ _ (by decide) (by decide)
    (by decide)⟩

/-- C5 as stated fails: a token whose header names HS384, not HS256, and
whose signature is the HMAC-SHA384 of its signing string under the service's
secret is accepted by `ValidateToken` on every platform. -/
theorem C5_counterexample :
    jwt.SigningMethod.SigningMethodHS384 ≠ jwt.SigningMethod.SigningMethodHS256 ∧
    ∀ P : Platform, ∃ (tok : jwt.TokenString) (claims : auth.JWTClaims),
      (jwt.NewWithClaims .SigningMethodHS384
        ((auth.NewJWTService "secret" "warehouse").newClaims 1700000000000000000
          1700000000000000000 1700000000000000000 "USR-2024-001" "operator"
          "warehouse_operator" "level_2" 3600000000000)).SignedString P
        (golang.bytes "secret") = .ok tok ∧
      tok.method = some .SigningMethodHS384 ∧
      (auth.NewJWTService "secret" "warehouse").ValidateToken P 1700000000000000000 tok =
        .ok claims := by
  refine ⟨by decide, fun P => ⟨_,
    (auth.NewJWTService "secret" "warehouse").newClaims 1700000000000000000
      1700000000000000000 1700000000000000000 "USR-2024-001" "operator"
      "warehouse_operator" "level_2" 3600000000000, rfl, rfl, ?_⟩⟩
  refine (auth.JWTService.ValidateToken_compact P _ _ _ _ _ _ .SHA384 ?_).trans ?_
  · rfl
  · rw [jwt.Validate_eq_none]
    · exact if_pos rfl
    · intro e he
      simp only [jwt.NewWithClaims, auth.JWTService.newClaims, Option.some.injEq] at he
      subst he
      decide
    · intro n hn
      simp only [jwt.NewWithClaims, auth.JWTService.newClaims, Option.some.injEq] at hn
      subst hn
      decide

/-- C6: a token issued by a service, validated by that service at an instant
strictly after the token's expires-at, is rejected with an error of the
Expired kind. -/
theorem C6_expired_token_rejected (P : Platform) (j : auth.JWTService)
    (nowExp nowIat nowNbf : time.Time) (userID username role accessLevel : String)
    (ttl : time.Duration) (tok : jwt.TokenString) (expiresAt now : time.Time)
    (hgen : j.GenerateToken P nowExp nowIat nowNbf userID username role accessLevel ttl = .ok tok)
    (hexp : tok.expiresAt = some expiresAt) (hlate : expiresAt < now) :
    ∃ err, j.ValidateToken P now tok = .error err ∧ err.Is .ErrTokenExpired = true := by
  apply auth.JWTService.ValidateToken_own_expired P j nowExp nowIat nowNbf userID username role
    accessLevel ttl now tok hgen
  rw [auth.JWTService.GenerateToken_eq] at hgen
  injection hgen with hgen
  subst hgen
  simp only [jwt.TokenString.expiresAt, jwt.TokenString.claims, auth.JWTService.newClaims,
    Option.map_some', Option.some.injEq] at hexp
  rw [hexp]
  exact le_of_lt hlate

/-- C6 at a token issued for one hour and validated one hour and one second
later. -/
theorem C6_expired_token_rejected_witness :
    ∃ tok,
      (auth.NewJWTService "secret" "warehouse").GenerateToken Platform.demo
        1700000000000000000 1700000000000000000 1700000000000000000
        "USR-2024-001" "operator" "warehouse_operator" "level_2" 3600000000000 = .ok tok ∧
      tok.expiresAt = some 1700003600000000000 ∧
      (1700003600000000000 : time.Time) < 1700003601000000000 ∧
      ∃ err, (auth.NewJWTService "secret" "warehouse").ValidateToken Platform.demo
        1700003601000000000 tok = .error err ∧ err.Is .ErrTokenExpired = true :=
  ⟨_, rfl, by decide, by decide,
    C6_expired_token_rejected Platform.demo _ _ _ _ _ _ _ _ _ _ 1700003600000000000
      1700003601000000000 rfl (by decide) (by decide)⟩

/-- A service validating a token another service generated: when the
signature is not the MAC under its own secret, the signature is refused. -/
theorem auth.JWTService.ValidateToken_foreign (P : Platform) (j₁ j₂ : auth.JWTService)
    (nowExp nowIat nowNbf : time.Time) (userID username role accessLevel : String)
    (ttl : time.Duration) (tok : jwt.TokenString) (now : time.Time)
    (hgen : j₁.GenerateToken P nowExp nowIat nowNbf userID username role accessLevel ttl =
      .ok tok)
    (hmac : ¬ tok.hasMAC P .SHA256 j₂.secretKey) :
    j₂.ValidateToken P now tok =
      .error (.wrap "failed to parse token"
        (jwt.newError "" (.sentinel .ErrTokenSignatureInvalid)
          [.sentinel .ErrSignatureInvalid])) := by
  rw [auth.JWTService.GenerateToken_eq] at hgen
  injection hgen with hgen
  subst hgen
  simp only [jwt.TokenString.hasMAC, Option.some.injEq] at hmac
  refine (auth.JWTService.ValidateToken_compact P j₂ now _ _ _ _ .SHA256 ?_).trans ?_
  · rfl
  · rw [if_neg hmac]

/-- C7 (amended): a token generated by one service whose signature is not the
HMAC-SHA256 of its signing string under the secret of a second service is
rejected by the second service with an error of the InvalidSignature kind. -/
theorem C7_foreign_signature_rejected (P : Platform) (j₁ j₂ : auth.JWTService)
    (nowExp nowIat nowNbf : time.Time) (userID username role accessLevel : String)
    (ttl : time.Duration) (tok : jwt.TokenString) (now : time.Time)
    (hgen : j₁.GenerateToken P nowExp nowIat nowNbf userID username role accessLevel ttl =
      .ok tok)
    (hmac : ¬ tok.hasMAC P .SHA256 j₂.secretKey) :
    ∃ err, j₂.ValidateToken P now tok = .error err ∧
      err.Is .ErrTokenSignatureInvalid = true := by
  rw [auth.JWTService.ValidateToken_foreign P j₁ j₂ nowExp nowIat nowNbf userID username role
    accessLevel ttl tok now hgen hmac]
  exact ⟨_, rfl, rfl⟩

/-- C7 at two services with the secrets "secret" and "other". -/
theorem C7_foreign_signature_rejected_witness :
    ∃ tok,
      (auth.NewJWTService "secret" "warehouse").GenerateToken Platform.demo
        1700000000000000000 1700000000000000000 1700000000000000000
        "USR-2024-001" "operator" "warehouse_operator" "level_2" 3600000000000 = .ok tok ∧
      ¬ tok.hasMAC Platform.demo .SHA256 (auth.NewJWTService "other" "warehouse").secretKey ∧
      ∃ err, (auth.NewJWTService "other" "warehouse").ValidateToken Platform.demo
        1700000000000000000 tok = .error err ∧ err.Is .ErrTokenSignatureInvalid = true :=
  ⟨_, rfl, by decide,
    C7_foreign_signature_rejected Platform.demo _ _ _ _ _ _ _ _ _ _ _ _ rfl (by decide)⟩

/-- C7 as stated fails: the secrets "k" and "k" followed by a zero byte differ,
yet both fill the HMAC key block with the same bytes, so on every platform the
second service accepts a token of the first and returns its claims. -/
theorem C7_counterexample :
    (auth.NewJWTService "k" "warehouse").secretKey ≠
      (auth.NewJWTService "k\x00" "warehouse").secretKey ∧
    ∀ P : Platform, ∃ (tok : jwt.TokenString) (claims : auth.JWTClaims),
      (auth.NewJWTService "k" "warehouse").GenerateToken P
        1700000000000000000 1700000000000000000 1700000000000000000
        "USR-2024-001" "operator" "warehouse_operator" "level_2" 3600000000000 = .ok tok ∧
      (auth.NewJWTService "k\x00" "warehouse").ValidateToken P 1700000000000000000 tok =
        .ok claims := by
  refine ⟨by decide, fun P => ⟨_,
    (auth.NewJWTService "k" "warehouse").newClaims 1700000000000000000
      1700000000000000000 1700000000000000000 "USR-2024-001" "operator"
      "warehouse_operator" "level_2" 3600000000000,
    auth.JWTService.GenerateToken_eq P _ _ _ _ _ _ _ _ _, ?_⟩⟩
  refine (auth.JWTService.ValidateToken_compact P _ _ _ _ _ _ .SHA256 ?_).trans ?_
  · rfl
  · rw [jwt.Validate_eq_none]
    · exact if_pos (hmac.Sum_zero_padded_key P .SHA256 _)
    · intro e he
      simp only [auth.JWTService.newClaims, Option.some.injEq] at he
      subst he
      decide
    · intro n hn
      simp only [auth.JWTService.newClaims, Option.some.injEq] at hn
      subst hn
      decide

/-- `RefreshToken` of a token that passes validation is `GenerateToken` for
the validated claims. -/
theorem auth.JWTService.RefreshToken_of_valid (P : Platform) (j : auth.JWTService)
    (now nowExp nowIat nowNbf : time.Time) (tokenString : jwt.TokenString)
    (newExpiration : time.Duration) (claims : auth.JWTClaims)
    (hvalid : j.ValidateToken P now tokenString = .ok claims) :
    j.RefreshToken P now nowExp nowIat nowNbf tokenString newExpiration =
      j.GenerateToken P nowExp nowIat nowNbf claims.UserID claims.Username claims.Role
        claims.AccessLevel newExpiration := by
  unfold auth.JWTService.RefreshToken
  rw [hvalid]

/-- `RefreshToken` of a token that fails validation is the validation error,
wrapped. -/
theorem auth.JWTService.RefreshToken_of_invalid (P : Platform) (j : auth.JWTService)
    (now nowExp nowIat nowNbf : time.Time) (tokenString : jwt.TokenString)
    (newExpiration : time.Duration) (err : golang.Error)
    (hinvalid : j.ValidateToken P now tokenString = .error err) :
    j.RefreshToken P now nowExp nowIat nowNbf tokenString newExpiration =
      .error (.wrap "invalid token for refresh" err) := by
  unfold auth.JWTService.RefreshToken
  rw [hinvalid]

/-- The claims `ValidateToken` returns are the claims the token string
carries. -/
theorem auth.JWTService.claims_of_valid (P : Platform) (j : auth.JWTService) (now : time.Time)
    (tokenString : jwt.TokenString) (claims : auth.JWTClaims)
    (hvalid : j.ValidateToken P now tokenString = .ok claims) :
    tokenString.claims = some claims := by
  cases tokenString with
  | malformed raw => cases hvalid
  | compact text header tclaims signature =>
    obtain ⟨typ, alg⟩ := header
    cases alg with
    | none => cases hvalid
    | some alg =>
      simp only [auth.JWTService.ValidateToken, jwt.ParseWithClaims, jwt.ParseUnverified]
        at hvalid
      cases hmeth : jwt.GetSigningMethod alg with
      | none => simp only [hmeth] at hvalid; cases hvalid
      | some m =>
        cases signature with
        | none => simp only [hmeth] at hvalid; cases hvalid
        | some sig =>
          simp only [hmeth] at hvalid
          cases hk : j.keyFunc
              { Method := m, Header := ⟨typ, some alg⟩, Claims := tclaims, Signature := [],
                Valid := false } with
          | error e => simp only [hk] at hvalid; cases hvalid
          | ok key =>
            simp only [hk] at hvalid
            cases hver : jwt.SigningMethod.Verify P m text sig key with
            | some e => simp only [hver] at hvalid; cases hvalid
            | none =>
              simp only [hver] at hvalid
              cases hv : jwt.NewValidator.Validate now tclaims with
              | some e => simp only [hv] at hvalid; cases hvalid
              | none =>
                simp only [hv, if_true] at hvalid
                injection hvalid with hvalid
                subst hvalid
                rfl

/-- The expires-at of a refreshed token is the refresh instant plus the new
expiration, in whole seconds: the expires-at of the presented token plays no
part in it. -/
theorem auth.JWTService.RefreshToken_expiresAt (P : Platform) (j : auth.JWTService)
    (now nowExp nowIat nowNbf : time.Time) (tok : jwt.TokenString)
    (newExpiration : time.Duration) (claims : auth.JWTClaims)
    (hvalid : j.ValidateToken P now tok = .ok claims) :
    ∃ tok', j.RefreshToken P now nowExp nowIat nowNbf tok newExpiration = .ok tok' ∧
      tok'.expiresAt = some (jwt.NewNumericDate (time.Add nowExp newExpiration)).Time := by
  rw [auth.JWTService.RefreshToken_of_valid P j now nowExp nowIat nowNbf tok newExpiration
    claims hvalid, auth.JWTService.GenerateToken_eq]
  exact ⟨_, rfl, rfl⟩

/-- C8 at its failing input: a token issued for one hour passes validation at
the issuing instant, and `RefreshToken` called there with a new expiration of
one minute returns, on every platform, a token whose expires-at is 59 minutes
earlier than that of the token presented, where the function is documented to
return a token with extended expiration. -/
theorem C8_refresh_shortens_expiry :
    (1700000060000000000 : time.Time) < 1700003600000000000 ∧
    ∀ P : Platform, ∃ (tok : jwt.TokenString) (claims : auth.JWTClaims) (tok' : jwt.TokenString),
      (auth.NewJWTService "secret" "warehouse").GenerateToken P
        1700000000000000000 1700000000000000000 1700000000000000000
        "USR-2024-001" "operator" "warehouse_operator" "level_2" 3600000000000 = .ok tok ∧
      (auth.NewJWTService "secret" "warehouse").ValidateToken P 1700000000000000000 tok =
        .ok claims ∧
      (auth.NewJWTService "secret" "warehouse").RefreshToken P
        1700000000000000000 1700000000000000000 1700000000000000000 1700000000000000000
        tok 60000000000 = .ok tok' ∧
      tok.expiresAt = some 1700003600000000000 ∧
      tok'.expiresAt = some 1700000060000000000 := by
  refine ⟨by decide, fun P => ?_⟩
  have hgen := auth.JWTService.GenerateToken_eq P
    (auth.NewJWTService "secret" "warehouse") 1700000000000000000 1700000000000000000
    1700000000000000000 "USR-2024-001" "operator" "warehouse_operator" "level_2" 3600000000000
  have hvalid := auth.JWTService.ValidateToken_own_valid P
    (auth.NewJWTService "secret" "warehouse") 1700000000000000000 1700000000000000000
    1700000000000000000 "USR-2024-001" "operator" "warehouse_operator" "level_2" 3600000000000
    1700000000000000000 _ hgen (by decide) (by decide)
  have h1 : (jwt.NewNumericDate (time.Add 1700000000000000000 3600000000000)).Time =
      1700003600000000000 := by decide
  have h2 : (jwt.NewNumericDate (time.Add 1700000000000000000 60000000000)).Time =
      1700000060000000000 := by decide
  have href := (auth.JWTService.RefreshToken_of_valid P
    (auth.NewJWTService "secret" "warehouse") 1700000000000000000 1700000000000000000
    1700000000000000000 1700000000000000000 _ 60000000000 _ hvalid).trans
    (auth.JWTService.GenerateToken_eq P _ _ _ _ _ _ _ _ _)
  exact ⟨_, _, _, hgen, hvalid, href, congrArg some h1, congrArg some h2⟩

/-- C9 (amended): for a token that passes validation and a new expiration of
at least one second, `RefreshToken` at that instant succeeds and the token it
returns passes validation at that instant with the user id, username, role and
access level of the presented token's claims. -/
theorem C9_refresh_preserves_identity (P : Platform) (j : auth.JWTService) (now : time.Time)
    (tok : jwt.TokenString) (newExpiration : time.Duration) (claims : auth.JWTClaims)
    (hvalid : j.ValidateToken P now tok = .ok claims)
    (hnew : time.Second ≤ newExpiration) :
    tok.claims = some claims ∧
    ∃ tok' claims',
      j.RefreshToken P now now now now tok newExpiration = .ok tok' ∧
      j.ValidateToken P now tok' = .ok claims' ∧
      claims'.UserID = claims.UserID ∧ claims'.Username = claims.Username ∧
      claims'.Role = claims.Role ∧ claims'.AccessLevel = claims.AccessLevel := by
  refine ⟨auth.JWTService.claims_of_valid P j now tok claims hvalid, ?_⟩
  rw [auth.JWTService.RefreshToken_of_valid P j now now now now tok newExpiration claims hvalid]
  exact ⟨_, _, auth.JWTService.GenerateToken_eq P j now now now _ _ _ _ newExpiration,
    auth.JWTService.ValidateToken_fresh P j now _ _ _ _ newExpiration hnew _
      (auth.JWTService.GenerateToken_eq P j now now now _ _ _ _ newExpiration),
    rfl, rfl, rfl, rfl⟩

/-- C9 at a token issued for one hour and refreshed at once for one hour. -/
theorem C9_refresh_preserves_identity_witness :
    ∃ tok claims,
      (auth.NewJWTService "secret" "warehouse").GenerateToken Platform.demo
        1700000000500000000 1700000000500000000 1700000000500000000
        "USR-2024-001" "operator" "warehouse_operator" "level_2" 3600000000000 = .ok tok ∧
      (auth.NewJWTService "secret" "warehouse").ValidateToken Platform.demo
        1700000000500000000 tok = .ok claims ∧
      time.Second ≤ (3600000000000 : time.Duration) ∧
      ∃ tok' claims',
        (auth.NewJWTService "secret" "warehouse").RefreshToken Platform.demo
          1700000000500000000 1700000000500000000 1700000000500000000 1700000000500000000
          tok 3600000000000 = .ok tok' ∧
        (auth.NewJWTService "secret" "warehouse").ValidateToken Platform.demo
          1700000000500000000 tok' = .ok claims' ∧
        claims'.UserID = claims.UserID ∧ claims'.Username = claims.Username ∧
        claims'.Role = claims.Role ∧ claims'.AccessLevel = claims.AccessLevel :=
  have hgen := auth.JWTService.GenerateToken_eq Platform.demo
    (auth.NewJWTService "secret" "warehouse") 1700000000500000000 1700000000500000000
    1700000000500000000 "USR-2024-001" "operator" "warehouse_operator" "level_2" 3600000000000
  have hvalid := auth.JWTService.ValidateToken_fresh Platform.demo
    (auth.NewJWTService "secret" "warehouse") 1700000000500000000
    "USR-2024-001" "operator" "warehouse_operator" "level_2" 3600000000000 (by decide) _ hgen
  ⟨_, _, hgen, hvalid, by decide,
    (C9_refresh_preserves_identity Platform.demo _ 1700000000500000000 _ 3600000000000 _ hvalid
      (by decide)).2⟩

/-- C9 as stated fails: a token issued for one hour at 1700000000.5 s passes
validation there, and refreshing it there with the positive new expiration of
one nanosecond yields, on every platform, a token that the service rejects at
that same instant as expired. -/
theorem C9_counterexample :
    (0 : time.Duration) < 1 ∧
    ∀ P : Platform, ∃ (tok : jwt.TokenString) (claims : auth.JWTClaims) (tok' : jwt.TokenString)
        (err : golang.Error),
      (auth.NewJWTService "secret" "warehouse").GenerateToken P
        1700000000500000000 1700000000500000000 1700000000500000000
        "USR-2024-001" "operator" "warehouse_operator" "level_2" 3600000000000 = .ok tok ∧
      (auth.NewJWTService "secret" "warehouse").ValidateToken P 1700000000500000000 tok =
        .ok claims ∧
      (auth.NewJWTService "secret" "warehouse").RefreshToken P
        1700000000500000000 1700000000500000000 1700000000500000000 1700000000500000000
        tok 1 = .ok tok' ∧
      (auth.NewJWTService "secret" "warehouse").ValidateToken P 1700000000500000000 tok' =
        .error err ∧
      err.Is .ErrTokenExpired = true := by
  refine ⟨by decide, fun P => ?_⟩
  have hgen := auth.JWTService.GenerateToken_eq P
    (auth.NewJWTService "secret" "warehouse") 1700000000500000000 1700000000500000000
    1700000000500000000 "USR-2024-001" "operator" "warehouse_operator" "level_2" 3600000000000
  have hvalid := auth.JWTService.ValidateToken_fresh P
    (auth.NewJWTService "secret" "warehouse") 1700000000500000000
    "USR-2024-001" "operator" "warehouse_operator" "level_2" 3600000000000 (by decide) _ hgen
  have hgen' := auth.JWTService.GenerateToken_eq P
    (auth.NewJWTService "secret" "warehouse") 1700000000500000000 1700000000500000000
    1700000000500000000 "USR-2024-001" "operator" "warehouse_operator" "level_2" 1
  obtain ⟨err, herr, his⟩ := auth.JWTService.ValidateToken_own_expired P
    (auth.NewJWTService "secret" "warehouse") 1700000000500000000 1700000000500000000
    1700000000500000000 "USR-2024-001" "operator" "warehouse_operator" "level_2" 1
    1700000000500000000 _ hgen' (by decide)
  refine ⟨_, _, _, err, hgen, hvalid, ?_, herr, his⟩
  rw [auth.JWTService.RefreshToken_of_valid P _ _ _ _ _ _ _ _ hvalid]
  exact hgen'

/-- C10: `RefreshToken` fails exactly when validation fails. When
`ValidateToken` returns an error, `RefreshToken` returns no token and that
error wrapped, which `errors.Is` matches against the same kinds; when
`ValidateToken` returns claims, `RefreshToken` returns what `GenerateToken`
returns for their user id, username, role and access level. -/
theorem C10_refresh_fails_iff_validation_fails (P : Platform) (j : auth.JWTService)
    (now nowExp nowIat nowNbf : time.Time) (tokenString : jwt.TokenString)
    (newExpiration : time.Duration) :
    (∀ err, j.ValidateToken P now tokenString = .error err →
      j.RefreshToken P now nowExp nowIat nowNbf tokenString newExpiration =
        .error (.wrap "invalid token for refresh" err) ∧
      ∀ target, (golang.Error.wrap "invalid token for refresh" err).Is target =
        err.Is target) ∧
    (∀ claims, j.ValidateToken P now tokenString = .ok claims →
      j.RefreshToken P now nowExp nowIat nowNbf tokenString newExpiration =
        j.GenerateToken P nowExp nowIat nowNbf claims.UserID claims.Username claims.Role
          claims.AccessLevel newExpiration ∧
      ∃ tok, j.RefreshToken P now nowExp nowIat nowNbf tokenString newExpiration = .ok tok) ∧
    ((∃ err, j.RefreshToken P now nowExp nowIat nowNbf tokenString newExpiration = .error err) ↔
      ∃ err, j.ValidateToken P now tokenString = .error err) := by
  refine ⟨fun err h => ⟨auth.JWTService.RefreshToken_of_invalid P j now nowExp nowIat nowNbf
    tokenString newExpiration err h, fun _ => rfl⟩, fun claims h => ?_, ?_⟩
  · rw [auth.JWTService.RefreshToken_of_valid P j now nowExp nowIat nowNbf tokenString
      newExpiration claims h]
    exact ⟨rfl, _, auth.JWTService.GenerateToken_eq P j _ _ _ _ _ _ _ _⟩
  · cases h : j.ValidateToken P now tokenString with
    | error err =>
      rw [auth.JWTService.RefreshToken_of_invalid P j now nowExp nowIat nowNbf tokenString
        newExpiration err h]
      exact ⟨fun _ => ⟨_, rfl⟩, fun _ => ⟨_, rfl⟩⟩
    | ok claims =>
      rw [auth.JWTService.RefreshToken_of_valid P j now nowExp nowIat nowNbf tokenString
        newExpiration claims h, auth.JWTService.GenerateToken_eq]
      constructor
      · rintro ⟨err, herr⟩
        cases herr
      · rintro ⟨err, herr⟩
        cases herr

/-! ## Token service: the claims `GenerateToken` signs -/

/-- The instant a numeric date holds: the instant it was built from, rounded
down to a whole second. -/
theorem jwt.NewNumericDate_Time (t : time.Time) :
    (jwt.NewNumericDate t).Time = t - t % 1000000000 := by
  unfold jwt.NewNumericDate jwt.TimePrecision
  exact time.Truncate_Second t

/-- C11 (amended): the claims `GenerateToken` signs carry the caller's user id,
username, role and access level unchanged and the service's issuer; issued-at,
not-before and expires-at are the clock reading taken for the field (plus the
lifetime, for expires-at) rounded down to a whole second, and issued-at equals
not-before when the two are read at the same instant. -/
theorem C11_generated_claims (P : Platform) (j : auth.JWTService)
    (nowExp nowIat nowNbf : time.Time) (userID username role accessLevel : String)
    (ttl : time.Duration) :
    ∃ tok claims,
      j.GenerateToken P nowExp nowIat nowNbf userID username role accessLevel ttl = .ok tok ∧
      tok.claims = some claims ∧
      claims.UserID = userID ∧ claims.Username = username ∧ claims.Role = role ∧
      claims.AccessLevel = accessLevel ∧ claims.RegisteredClaims.Issuer = j.issuer ∧
      claims.RegisteredClaims.IssuedAt = some ⟨nowIat - nowIat % 1000000000⟩ ∧
      claims.RegisteredClaims.NotBefore = some ⟨nowNbf - nowNbf % 1000000000⟩ ∧
      claims.RegisteredClaims.ExpiresAt =
        some ⟨(nowExp + ttl) - (nowExp + ttl) % 1000000000⟩ ∧
      (nowIat = nowNbf →
        claims.RegisteredClaims.IssuedAt = claims.RegisteredClaims.NotBefore) := by
  refine ⟨_, j.newClaims nowExp nowIat nowNbf userID username role accessLevel ttl,
    auth.JWTService.GenerateToken_eq P j nowExp nowIat nowNbf userID username role accessLevel ttl,
    rfl, rfl, rfl, rfl, rfl, rfl, ?_, ?_, ?_, ?_⟩
  · exact congrArg (fun t => some (jwt.NumericDate.mk t)) (jwt.NewNumericDate_Time nowIat)
  · exact congrArg (fun t => some (jwt.NumericDate.mk t)) (jwt.NewNumericDate_Time nowNbf)
  · exact congrArg (fun t => some (jwt.NumericDate.mk t))
      (jwt.NewNumericDate_Time (time.Add nowExp ttl))
  · intro h
    subst h
    rfl

/-- C11 as stated fails: when the call is made at 1700000000.5 s with a
lifetime of 1.2 s, on every platform the signed claims carry the issued-at and
not-before 1700000000 s, which is not the time of the call, and the expires-at
1700000001 s, which is not the time of the call plus the lifetime. -/
theorem C11_counterexample :
    ((1700000000000000000 : time.Time) ≠ 1700000000500000000 ∧
      (1700000001000000000 : time.Time) ≠ 1700000000500000000 + 1200000000) ∧
    ∀ P : Platform, ∃ (tok : jwt.TokenString) (claims : auth.JWTClaims),
      (auth.NewJWTService "secret" "warehouse").GenerateToken P
        1700000000500000000 1700000000500000000 1700000000500000000
        "USR-2024-001" "operator" "warehouse_operator" "level_2" 1200000000 = .ok tok ∧
      tok.claims = some claims ∧
      claims.RegisteredClaims.IssuedAt = some ⟨1700000000000000000⟩ ∧
      claims.RegisteredClaims.NotBefore = some ⟨1700000000000000000⟩ ∧
      claims.RegisteredClaims.ExpiresAt = some ⟨1700000001000000000⟩ := by
  refine ⟨by decide, fun P => ⟨_,
    (auth.NewJWTService "secret" "warehouse").newClaims 1700000000500000000
      1700000000500000000 1700000000500000000 "USR-2024-001" "operator" "warehouse_operator"
      "level_2" 1200000000,
    auth.JWTService.GenerateToken_eq P _ _ _ _ _ _ _ _ _, rfl, ?_, ?_, ?_⟩⟩
  · decide
  · decide
  · decide

/-! ## Registry: maps -/

/-- A key that is looked up in vain labels no entry. -/
theorem golang.not_mem_keys_of_mapLookup_eq_none {α : Type} (m : List (String × α)) (k : String)
    (h : golang.mapLookup m k = none) : k ∉ m.map Prod.fst := by
  induction m with
  | nil => simp
  | cons e m ih =>
    obtain ⟨k', v⟩ := e
    unfold golang.mapLookup at h ih
    by_cases hk : k = k'
    · subst hk
      simp [List.lookup] at h
    · have hb : (k == k') = false := beq_eq_false_iff_ne.mpr hk
      simp only [List.lookup, hb] at h
      simp only [List.map_cons, List.mem_cons, not_or]
      exact ⟨hk, ih h⟩

/-- A key that labels no entry is looked up in vain. -/
theorem golang.mapLookup_eq_none_of_not_mem_keys {α : Type} (m : List (String × α)) (k : String)
    (h : k ∉ m.map Prod.fst) : golang.mapLookup m k = none := by
  induction m with
  | nil => rfl
  | cons e m ih =>
    obtain ⟨k', v⟩ := e
    simp only [List.map_cons, List.mem_cons, not_or] at h
    have hb : (k == k') = false := beq_eq_false_iff_ne.mpr h.1
    unfold golang.mapLookup at ih ⊢
    simp only [List.lookup, hb]
    exact ih h.2

/-- The value found under a key is stored under that key. -/
theorem golang.mem_of_mapLookup_eq_some {α : Type} (m : List (String × α)) (k : String) (v : α)
    (h : golang.mapLookup m k = some v) : (k, v) ∈ m := by
  induction m with
  | nil => cases h
  | cons e m ih =>
    obtain ⟨k', v'⟩ := e
    unfold golang.mapLookup at h ih
    by_cases hk : k = k'
    · subst hk
      simp only [List.lookup, beq_self_eq_true, Option.some.injEq] at h
      subst h
      exact List.mem_cons_self _ _
    · have hb : (k == k') = false := beq_eq_false_iff_ne.mpr hk
      simp only [List.lookup, hb] at h
      exact List.mem_cons_of_mem _ (ih h)

/-- Storing under a key that labels no entry puts the new entry in front. -/
theorem golang.mapStore_of_absent {α : Type} (m : List (String × α)) (k : String) (v : α)
    (h : golang.mapLookup m k = none) : golang.mapStore m k v = (k, v) :: m := by
  unfold golang.mapStore
  congr 1
  rw [List.filter_eq_self]
  intro e he
  have hk := golang.not_mem_keys_of_mapLookup_eq_none m k h
  have hne : e.1 ≠ k := by
    intro heq
    exact hk (heq ▸ List.mem_map_of_mem Prod.fst he)
  simpa using hne

/-- Storing under a key leaves what is found under another key. -/
theorem golang.mapLookup_cons_of_ne {α : Type} (m : List (String × α)) (k k' : String) (v : α)
    (h : k' ≠ k) : golang.mapLookup ((k, v) :: m) k' = golang.mapLookup m k' := by
  have hb : (k' == k) = false := beq_eq_false_iff_ne.mpr h
  unfold golang.mapLookup
  simp only [List.lookup, hb]

/-- What was stored under a key is found under it. -/
theorem golang.mapLookup_cons_self {α : Type} (m : List (String × α)) (k : String) (v : α) :
    golang.mapLookup ((k, v) :: m) k = some v := by
  unfold golang.mapLookup
  simp [List.lookup]

/-- In a map whose values are pairwise distinct, one value is found under one
key only. -/
theorem golang.key_eq_of_mapLookup_eq {α : Type} (m : List (String × α)) (k k' : String) (v : α)
    (hnodup : (m.map Prod.snd).Nodup)
    (h : golang.mapLookup m k = some v) (h' : golang.mapLookup m k' = some v) : k = k' := by
  have hm := golang.mem_of_mapLookup_eq_some m k v h
  have hm' := golang.mem_of_mapLookup_eq_some m k' v h'
  have := List.inj_on_of_nodup_map hnodup hm hm' rfl
  exact congrArg Prod.fst this

/-- Appending strings is injective in the second string. -/
theorem String.append_right_injective (a b c : String) (h : a ++ b = a ++ c) : b = c := by
  have hd := congrArg String.data h
  simp only [String.data_append] at hd
  exact String.ext (List.append_cancel_left hd)

/-! ## Registry: lemmas -/

/-- `GetProducer` on a topic that has a producer returns it and changes nothing. -/
theorem kafka.GetProducer_of_present (w : kafka.World) (topic : String) (p : Nat)
    (h : golang.mapLookup w.k.producers topic = some p) :
    kafka.GetProducer w topic = (p, w) := by
  unfold kafka.GetProducer kafka.lookupProducer
  rw [h]

/-- `GetProducer` on a topic that has no producer allocates one and stores it. -/
theorem kafka.GetProducer_of_absent (w : kafka.World) (topic : String)
    (h : golang.mapLookup w.k.producers topic = none) :
    (kafka.GetProducer w topic).1 = w.heap.producers.length ∧
    (kafka.GetProducer w topic).2.k.producers = (topic, w.heap.producers.length) :: w.k.producers ∧
    (kafka.GetProducer w topic).2.k.consumers = w.k.consumers ∧
    (kafka.GetProducer w topic).2.heap.producers.length = w.heap.producers.length + 1 ∧
    (kafka.GetProducer w topic).2.heap.consumers = w.heap.consumers ∧
    (kafka.GetProducer w topic).2.closedProducers = w.closedProducers ∧
    (kafka.GetProducer w topic).2.closedConsumers = w.closedConsumers := by
  unfold kafka.GetProducer kafka.lookupProducer
  rw [h]
  simp only [kafka.createProducer, kafka.NewProducer, golang.mapStore_of_absent _ _ _ h,
    List.length_append, List.length_singleton, and_self]

/-- `GetProducer` never changes the list of brokers. -/
theorem kafka.brokers_GetProducer (w : kafka.World) (topic : String) :
    (kafka.GetProducer w topic).2.k.brokers = w.k.brokers := by
  unfold kafka.GetProducer
  cases kafka.lookupProducer w topic <;> rfl

/-- The configuration `NewConsumer` builds is accepted when there is a broker
and the topic is not empty. -/
theorem kafkago.ReaderConfig.Validate_of_nonempty (brokers : List String) (topic groupID : String)
    (hb : brokers ≠ []) (ht : topic ≠ "") :
    kafkago.ReaderConfig.Validate
      { Brokers := brokers, Topic := topic, GroupID := groupID, MinBytes := 10000,
        MaxBytes := 10000000 } = none := by
  have hlen : brokers.length ≠ 0 := fun h => hb (List.length_eq_zero.mp h)
  simp [kafkago.ReaderConfig.Validate, hlen, ht]

/-- `GetConsumer` on a key that has a consumer returns it and changes nothing. -/
theorem kafka.GetConsumer_of_present (w : kafka.World) (topic groupID : String) (c : Nat)
    (h : golang.mapLookup w.k.consumers (topic ++ "-" ++ groupID) = some c) :
    kafka.GetConsumer w topic groupID = .ok (c, w) := by
  unfold kafka.GetConsumer
  simp only [h]

/-- `GetConsumer` on a key that has no consumer panics with the error of the
configuration when there is one, and otherwise allocates a consumer and stores
it. -/
theorem kafka.GetConsumer_of_absent (w : kafka.World) (topic groupID : String)
    (h : golang.mapLookup w.k.consumers (topic ++ "-" ++ groupID) = none) :
    (∃ err,
      kafkago.ReaderConfig.Validate
        { Brokers := w.k.brokers, Topic := topic, GroupID := groupID, MinBytes := 10000,
          MaxBytes := 10000000 } = some err ∧
      kafka.GetConsumer w topic groupID = .error err) ∨
    (kafkago.ReaderConfig.Validate
        { Brokers := w.k.brokers, Topic := topic, GroupID := groupID, MinBytes := 10000,
          MaxBytes := 10000000 } = none ∧
      ∃ w', kafka.GetConsumer w topic groupID = .ok (w.heap.consumers.length, w') ∧
        w'.k.consumers = (topic ++ "-" ++ groupID, w.heap.consumers.length) :: w.k.consumers ∧
        w'.k.producers = w.k.producers ∧
        w'.k.brokers = w.k.brokers ∧
        w'.heap.consumers.length = w.heap.consumers.length + 1 ∧
        w'.heap.producers = w.heap.producers ∧
        w'.closedProducers = w.closedProducers ∧
        w'.closedConsumers = w.closedConsumers) := by
  unfold kafka.GetConsumer
  simp only [h, kafka.NewConsumer, kafkago.NewReader]
  cases hv : kafkago.ReaderConfig.Validate
      { Brokers := w.k.brokers, Topic := topic, GroupID := groupID, MinBytes := 10000,
        MaxBytes := 10000000 } with
  | some err => exact Or.inl ⟨err, rfl, rfl⟩
  | none =>
    refine Or.inr ⟨rfl, _, rfl, ?_⟩
    simp only [golang.mapStore_of_absent _ _ _ h, List.length_append, List.length_singleton,
      and_self]

/-- What a `GetConsumer` call does to the registry: nothing, when it panics or
the key has a consumer, and else one consumer more, stored under the key. -/
theorem kafka.exec_GetConsumer (w : kafka.World) (topic groupID : String) :
    ((kafka.Call.GetConsumer topic groupID).exec w).2 = w ∨
    (golang.mapLookup w.k.consumers (topic ++ "-" ++ groupID) = none ∧
      kafka.GetConsumer w topic groupID =
        .ok (w.heap.consumers.length, ((kafka.Call.GetConsumer topic groupID).exec w).2) ∧
      ((kafka.Call.GetConsumer topic groupID).exec w).2.k.consumers =
        (topic ++ "-" ++ groupID, w.heap.consumers.length) :: w.k.consumers ∧
      ((kafka.Call.GetConsumer topic groupID).exec w).2.k.producers = w.k.producers ∧
      ((kafka.Call.GetConsumer topic groupID).exec w).2.k.brokers = w.k.brokers ∧
      ((kafka.Call.GetConsumer topic groupID).exec w).2.heap.consumers.length =
        w.heap.consumers.length + 1 ∧
      ((kafka.Call.GetConsumer topic groupID).exec w).2.heap.producers = w.heap.producers ∧
      ((kafka.Call.GetConsumer topic groupID).exec w).2.closedProducers = w.closedProducers ∧
      ((kafka.Call.GetConsumer topic groupID).exec w).2.closedConsumers = w.closedConsumers) := by
  cases h : golang.mapLookup w.k.consumers (topic ++ "-" ++ groupID) with
  | some c =>
    left
    simp only [kafka.Call.exec, kafka.GetConsumer_of_present w topic groupID c h]
  | none =>
    rcases kafka.GetConsumer_of_absent w topic groupID h with ⟨err, -, hg⟩ | ⟨-, w', hg, hw'⟩
    · left
      simp only [kafka.Call.exec, hg]
    · right
      simp only [kafka.Call.exec, hg, true_and]
      exact hw'

/-- The handle a `GetConsumer` call returns is the one `GetConsumer` returns,
and the world after it the one `GetConsumer` leaves. -/
theorem kafka.exec_of_GetConsumer_ok (w w' : kafka.World) (topic groupID : String) (c : Nat)
    (h : kafka.GetConsumer w topic groupID = .ok (c, w')) :
    (kafka.Call.GetConsumer topic groupID).exec w = (some (.consumer c), w') := by
  simp only [kafka.Call.exec, h]

/-- After `GetProducer` the topic has the producer that was returned. -/
theorem kafka.mapLookup_GetProducer (w : kafka.World) (topic : String) :
    golang.mapLookup (kafka.GetProducer w topic).2.k.producers topic =
      some (kafka.GetProducer w topic).1 := by
  cases h : golang.mapLookup w.k.producers topic with
  | some p => rw [kafka.GetProducer_of_present w topic p h]; exact h
  | none =>
    obtain ⟨h1, h2, -⟩ := kafka.GetProducer_of_absent w topic h
    rw [h1, h2]
    exact golang.mapLookup_cons_self _ _ _

/-- After a `GetConsumer` that returns, the key has the consumer that was
returned. -/
theorem kafka.mapLookup_GetConsumer (w w' : kafka.World) (topic groupID : String) (c : Nat)
    (hg : kafka.GetConsumer w topic groupID = .ok (c, w')) :
    golang.mapLookup w'.k.consumers (topic ++ "-" ++ groupID) = some c := by
  cases h : golang.mapLookup w.k.consumers (topic ++ "-" ++ groupID) with
  | some q =>
    rw [kafka.GetConsumer_of_present w topic groupID q h] at hg
    injection hg with hg
    injection hg with h1 h2
    subst h1 h2
    exact h
  | none =>
    rcases kafka.GetConsumer_of_absent w topic groupID h with ⟨err, -, he⟩ | ⟨-, w'', hk, h2, -⟩
    · rw [he] at hg
      cases hg
    · rw [hk] at hg
      injection hg with hg
      injection hg with h1 h3
      subst h1 h3
      rw [h2]
      exact golang.mapLookup_cons_self _ _ _

/-- A call never changes the producer a topic already has. -/
theorem kafka.producer_stable_exec (w : kafka.World) (call : kafka.Call) (topic : String) (p : Nat)
    (h : golang.mapLookup w.k.producers topic = some p) :
    golang.mapLookup (call.exec w).2.k.producers topic = some p := by
  cases call with
  | GetProducer t =>
    show golang.mapLookup (kafka.GetProducer w t).2.k.producers topic = some p
    cases ht : golang.mapLookup w.k.producers t with
    | some q => rw [kafka.GetProducer_of_present w t q ht]; exact h
    | none =>
      obtain ⟨-, h2, -⟩ := kafka.GetProducer_of_absent w t ht
      rw [h2, golang.mapLookup_cons_of_ne]
      · exact h
      · intro heq
        rw [heq, ht] at h
        cases h
  | GetConsumer t g =>
    rcases kafka.exec_GetConsumer w t g with hsame | ⟨-, -, -, h3, -⟩
    · rw [hsame]; exact h
    · rw [h3]; exact h

/-- A call never changes the consumer a key already has. -/
theorem kafka.consumer_stable_exec (w : kafka.World) (call : kafka.Call) (key : String) (c : Nat)
    (h : golang.mapLookup w.k.consumers key = some c) :
    golang.mapLookup (call.exec w).2.k.consumers key = some c := by
  cases call with
  | GetProducer t =>
    show golang.mapLookup (kafka.GetProducer w t).2.k.consumers key = some c
    cases ht : golang.mapLookup w.k.producers t with
    | some q => rw [kafka.GetProducer_of_present w t q ht]; exact h
    | none =>
      obtain ⟨-, -, h3, -⟩ := kafka.GetProducer_of_absent w t ht
      rw [h3]
      exact h
  | GetConsumer t g =>
    rcases kafka.exec_GetConsumer w t g with hsame | ⟨ht, -, h2, -⟩
    · rw [hsame]; exact h
    · rw [h2, golang.mapLookup_cons_of_ne]
      · exact h
      · intro heq
        rw [heq, ht] at h
        cases h

/-- A sequence of calls never changes the producer a topic already has. -/
theorem kafka.producer_stable_run (calls : List kafka.Call) (w : kafka.World) (topic : String)
    (p : Nat) (h : golang.mapLookup w.k.producers topic = some p) :
    golang.mapLookup (kafka.run w calls).k.producers topic = some p := by
  induction calls generalizing w with
  | nil => exact h
  | cons call calls ih => exact ih _ (kafka.producer_stable_exec w call topic p h)

/-- A sequence of calls never changes the consumer a key already has. -/
theorem kafka.consumer_stable_run (calls : List kafka.Call) (w : kafka.World) (key : String)
    (c : Nat) (h : golang.mapLookup w.k.consumers key = some c) :
    golang.mapLookup (kafka.run w calls).k.consumers key = some c := by
  induction calls generalizing w with
  | nil => exact h
  | cons call calls ih => exact ih _ (kafka.consumer_stable_exec w call key c h)

/-- A sequence of calls never changes the list of brokers. -/
theorem kafka.brokers_run (calls : List kafka.Call) (w : kafka.World) :
    (kafka.run w calls).k.brokers = w.k.brokers := by
  induction calls generalizing w with
  | nil => rfl
  | cons call calls ih =>
    refine (ih _).trans ?_
    cases call with
    | GetProducer t => exact kafka.brokers_GetProducer w t
    | GetConsumer t g =>
      show ((kafka.Call.GetConsumer t g).exec w).2.k.brokers = w.k.brokers
      rcases kafka.exec_GetConsumer w t g with hsame | ⟨-, -, -, -, h4, -⟩
      · rw [hsame]
      · exact h4

/-- The registry `NewKafkaService` returns satisfies the invariant. -/
theorem kafka.WellFormed_NewKafkaService (brokers : List String) :
    (kafka.NewKafkaService brokers).WellFormed :=
  ⟨List.nodup_nil, rfl, List.nodup_nil, rfl, rfl, rfl⟩

/-- The keys of a map after a fresh key was stored in front are pairwise
distinct, and its pointers are again the allocated ones. -/
theorem kafka.wellFormed_cons (m : List (String × Nat)) (key : String) (n : Nat)
    (hkeys : (m.map Prod.fst).Nodup) (hptrs : m.map Prod.snd = (List.range n).reverse)
    (habsent : golang.mapLookup m key = none) :
    (((key, n) :: m).map Prod.fst).Nodup ∧
    ((key, n) :: m).map Prod.snd = (List.range (n + 1)).reverse := by
  refine ⟨?_, ?_⟩
  · simp only [List.map_cons, List.nodup_cons]
    exact ⟨golang.not_mem_keys_of_mapLookup_eq_none m key habsent, hkeys⟩
  · simp only [List.map_cons, hptrs, List.range_succ, List.reverse_append, List.reverse_cons,
      List.reverse_nil, List.nil_append, List.singleton_append]

/-- A call preserves the invariant. -/
theorem kafka.WellFormed_exec (w : kafka.World) (call : kafka.Call) (h : w.WellFormed) :
    (call.exec w).2.WellFormed := by
  cases call with
  | GetProducer t =>
    show (kafka.GetProducer w t).2.WellFormed
    cases ht : golang.mapLookup w.k.producers t with
    | some q => rw [kafka.GetProducer_of_present w t q ht]; exact h
    | none =>
      obtain ⟨-, h2, h3, h4, h5, h6, h7⟩ := kafka.GetProducer_of_absent w t ht
      obtain ⟨hk, hp⟩ := kafka.wellFormed_cons w.k.producers t w.heap.producers.length
        h.producerKeys h.producerPtrs ht
      exact ⟨h2 ▸ hk, by rw [h2, h4]; exact hp, h3 ▸ h.consumerKeys,
        by rw [h3, h5]; exact h.consumerPtrs, h6 ▸ h.closedProducers, h7 ▸ h.closedConsumers⟩
  | GetConsumer t g =>
    rcases kafka.exec_GetConsumer w t g with hsame | ⟨ht, -, h2, h3, -, h4, h5, h6, h7⟩
    · rw [hsame]; exact h
    · obtain ⟨hk, hp⟩ := kafka.wellFormed_cons w.k.consumers (t ++ "-" ++ g)
        w.heap.consumers.length h.consumerKeys h.consumerPtrs ht
      exact ⟨h3 ▸ h.producerKeys, by rw [h3, h5]; exact h.producerPtrs, h2 ▸ hk,
        by rw [h2, h4]; exact hp, h6 ▸ h.closedProducers, h7 ▸ h.closedConsumers⟩

/-- A sequence of calls preserves the invariant. -/
theorem kafka.WellFormed_run (calls : List kafka.Call) (w : kafka.World) (h : w.WellFormed) :
    (kafka.run w calls).WellFormed := by
  induction calls generalizing w with
  | nil => exact h
  | cons call calls ih => exact ih _ (kafka.WellFormed_exec w call h)

/-- The topics that have a producer after a sequence of calls are those that
had one before and those the calls asked a producer for. -/
theorem kafka.mem_producer_keys_run (calls : List kafka.Call) (w : kafka.World) (topic : String) :
    topic ∈ (kafka.run w calls).k.producers.map Prod.fst ↔
      topic ∈ w.k.producers.map Prod.fst ∨ topic ∈ kafka.requestedTopics calls := by
  induction calls generalizing w with
  | nil => simp [kafka.run, kafka.requestedTopics]
  | cons call calls ih =>
    show topic ∈ (kafka.run (call.exec w).2 calls).k.producers.map Prod.fst ↔ _
    rw [ih]
    cases call with
    | GetProducer t =>
      show topic ∈ (kafka.GetProducer w t).2.k.producers.map Prod.fst ∨ _ ↔ _
      simp only [kafka.requestedTopics, List.mem_cons]
      cases ht : golang.mapLookup w.k.producers t with
      | some q =>
        rw [kafka.GetProducer_of_present w t q ht]
        have hmem : t ∈ w.k.producers.map Prod.fst :=
          List.mem_map_of_mem Prod.fst (golang.mem_of_mapLookup_eq_some _ _ _ ht)
        constructor
        · rintro (h | h)
          · exact Or.inl h
          · exact Or.inr (Or.inr h)
        · rintro (h | h | h)
          · exact Or.inl h
          · exact Or.inl (h ▸ hmem)
          · exact Or.inr h
      | none =>
        obtain ⟨-, h2, -⟩ := kafka.GetProducer_of_absent w t ht
        rw [h2]
        simp only [List.map_cons, List.mem_cons]
        tauto
    | GetConsumer t g =>
      simp only [kafka.requestedTopics]
      rcases kafka.exec_GetConsumer w t g with hsame | ⟨-, -, -, h3, -⟩
      · rw [hsame]
      · rw [h3]

/-- Under the invariant the registry holds one producer entry for each
producer object allocated. -/
theorem kafka.World.WellFormed.producer_count {w : kafka.World} (h : w.WellFormed) :
    w.k.producers.length = w.heap.producers.length := by
  have := congrArg List.length h.producerPtrs
  simpa using this

/-- Under the invariant a pointer found in the producer map is an allocated
object. -/
theorem kafka.World.WellFormed.producer_lt {w : kafka.World} (h : w.WellFormed) (topic : String)
    (p : Nat) (hp : golang.mapLookup w.k.producers topic = some p) :
    p < w.heap.producers.length := by
  have hmem : p ∈ w.k.producers.map Prod.snd :=
    List.mem_map_of_mem Prod.snd (golang.mem_of_mapLookup_eq_some _ _ _ hp)
  rw [h.producerPtrs] at hmem
  simpa using hmem

/-- Under the invariant a pointer found in the consumer map is an allocated
object. -/
theorem kafka.World.WellFormed.consumer_lt {w : kafka.World} (h : w.WellFormed) (key : String)
    (c : Nat) (hc : golang.mapLookup w.k.consumers key = some c) :
    c < w.heap.consumers.length := by
  have hmem : c ∈ w.k.consumers.map Prod.snd :=
    List.mem_map_of_mem Prod.snd (golang.mem_of_mapLookup_eq_some _ _ _ hc)
  rw [h.consumerPtrs] at hmem
  simpa using hmem

/-- Under the invariant the pointers of the producer map are pairwise distinct. -/
theorem kafka.World.WellFormed.producer_nodup {w : kafka.World} (h : w.WellFormed) :
    (w.k.producers.map Prod.snd).Nodup := by
  rw [h.producerPtrs]
  exact List.nodup_reverse.mpr (List.nodup_range _)

/-- Under the invariant the pointers of the consumer map are pairwise distinct. -/
theorem kafka.World.WellFormed.consumer_nodup {w : kafka.World} (h : w.WellFormed) :
    (w.k.consumers.map Prod.snd).Nodup := by
  rw [h.consumerPtrs]
  exact List.nodup_reverse.mpr (List.nodup_range _)

/-- Under the invariant, `GetProducer` for a topic other than the one a
producer is stored under returns another producer. -/
theorem kafka.GetProducer_ne (w : kafka.World) (h : w.WellFormed) (a b : String) (p : Nat)
    (hab : a ≠ b) (hp : golang.mapLookup w.k.producers a = some p) :
    (kafka.GetProducer w b).1 ≠ p := by
  cases hb : golang.mapLookup w.k.producers b with
  | some q =>
    rw [kafka.GetProducer_of_present w b q hb]
    intro heq
    exact hab (golang.key_eq_of_mapLookup_eq _ a b p h.producer_nodup hp (heq ▸ hb))
  | none =>
    rw [(kafka.GetProducer_of_absent w b hb).1]
    exact Nat.ne_of_gt (h.producer_lt a p hp)

/-- Under the invariant, a `GetConsumer` that returns, for a key other than
the one a consumer is stored under, returns another consumer. -/
theorem kafka.GetConsumer_ne (w w' : kafka.World) (h : w.WellFormed) (key : String)
    (topic groupID : String) (c c' : Nat) (hkey : key ≠ topic ++ "-" ++ groupID)
    (hc : golang.mapLookup w.k.consumers key = some c)
    (hg : kafka.GetConsumer w topic groupID = .ok (c', w')) :
    c' ≠ c := by
  cases hb : golang.mapLookup w.k.consumers (topic ++ "-" ++ groupID) with
  | some q =>
    rw [kafka.GetConsumer_of_present w topic groupID q hb] at hg
    injection hg with hg
    injection hg with h1 h2
    subst h1
    intro heq
    exact hkey (golang.key_eq_of_mapLookup_eq _ key _ c h.consumer_nodup hc (heq ▸ hb))
  | none =>
    rcases kafka.GetConsumer_of_absent w topic groupID hb with ⟨err, -, he⟩ | ⟨-, w'', hk, -⟩
    · rw [he] at hg
      cases hg
    · rw [hk] at hg
      injection hg with hg
      injection hg with h1 h2
      subst h1
      exact Nat.ne_of_gt (h.consumer_lt key c hc)

/-- `GetConsumer` returns whenever the registry has a broker and the topic is
not empty. -/
theorem kafka.GetConsumer_returns (w : kafka.World) (topic groupID : String)
    (hb : w.k.brokers ≠ []) (ht : topic ≠ "") :
    ∃ c w', kafka.GetConsumer w topic groupID = .ok (c, w') := by
  cases h : golang.mapLookup w.k.consumers (topic ++ "-" ++ groupID) with
  | some q => exact ⟨q, w, kafka.GetConsumer_of_present w topic groupID q h⟩
  | none =>
    rcases kafka.GetConsumer_of_absent w topic groupID h with ⟨err, hv, -⟩ | ⟨-, w', hk, -⟩
    · rw [kafkago.ReaderConfig.Validate_of_nonempty w.k.brokers topic groupID hb ht] at hv
      cases hv
    · exact ⟨_, w', hk⟩

/-- The handle a `GetConsumer` call returns, when it returns one, is the
consumer the key has after the call. -/
theorem kafka.exec_GetConsumer_handle (w : kafka.World) (topic groupID : String)
    (h : kafka.Handle) (hh : ((kafka.Call.GetConsumer topic groupID).exec w).1 = some h) :
    ∃ c, h = .consumer c ∧
      golang.mapLookup ((kafka.Call.GetConsumer topic groupID).exec w).2.k.consumers
        (topic ++ "-" ++ groupID) = some c := by
  cases hg : kafka.GetConsumer w topic groupID with
  | error e =>
    simp only [kafka.Call.exec, hg] at hh
    cases hh
  | ok r =>
    obtain ⟨c, w'⟩ := r
    rw [kafka.exec_of_GetConsumer_ok w w' topic groupID c hg] at hh ⊢
    injection hh with hh
    exact ⟨c, hh.symm, kafka.mapLookup_GetConsumer w w' topic groupID c hg⟩

/-- Repeated `GetProducer` calls for a topic that has a producer return that
producer and change nothing. -/
theorem kafka.run_replicate_of_present (n : Nat) (w : kafka.World) (topic : String) (p : Nat)
    (h : golang.mapLookup w.k.producers topic = some p) :
    kafka.run w (List.replicate n (.GetProducer topic)) = w ∧
    kafka.returned w (List.replicate n (.GetProducer topic)) = List.replicate n (.producer p) := by
  induction n with
  | zero => exact ⟨rfl, rfl⟩
  | succ n ih =>
    have hexec : (kafka.Call.GetProducer topic).exec w = (some (.producer p), w) := by
      simp only [kafka.Call.exec, kafka.GetProducer_of_present w topic p h]
    constructor
    · show kafka.run ((kafka.Call.GetProducer topic).exec w).2 _ = w
      rw [hexec]
      exact ih.1
    · show ((kafka.Call.GetProducer topic).exec w).1.toList ++
        kafka.returned ((kafka.Call.GetProducer topic).exec w).2 _ = _
      rw [hexec, ih.2]
      rfl

/-- One caller of `GetProducer` taking its two steps with no other caller in
between does what `GetProducer` does. -/
theorem kafka.interleave_one_caller (w : kafka.World) (topic : String) :
    kafka.interleave w [.entered topic] [0, 0] =
      ([.returned (kafka.GetProducer w topic).1], (kafka.GetProducer w topic).2) := by
  unfold kafka.GetProducer
  cases h : kafka.lookupProducer w topic <;>
    simp [kafka.interleave, kafka.Caller.step, h]

/-! ## Registry: the claims -/

/-- C12: in every registry state reached from `NewKafkaService` by a sequence
of calls, two `GetProducer` calls for one topic, with any calls in between,
return the same producer; `GetProducer` calls for two different topics return
different producers; and the number of producers constructed is the number of
distinct topics a producer was asked for. -/
theorem C12_one_producer_per_topic (brokers : List String) (calls between : List kafka.Call)
    (T A B : String) :
    (kafka.GetProducer
        (kafka.run (kafka.GetProducer (kafka.run (kafka.NewKafkaService brokers) calls) T).2
          between) T).1 =
      (kafka.GetProducer (kafka.run (kafka.NewKafkaService brokers) calls) T).1 ∧
    (A ≠ B →
      (kafka.GetProducer
          (kafka.run (kafka.GetProducer (kafka.run (kafka.NewKafkaService brokers) calls) A).2
            between) B).1 ≠
        (kafka.GetProducer (kafka.run (kafka.NewKafkaService brokers) calls) A).1) ∧
    (kafka.run (kafka.NewKafkaService brokers) calls).heap.producers.length =
      (kafka.requestedTopics calls).dedup.length := by
  have hwf := kafka.WellFormed_run calls _ (kafka.WellFormed_NewKafkaService brokers)
  refine ⟨?_, fun hab => ?_, ?_⟩
  · have h := kafka.producer_stable_run between
      (kafka.GetProducer (kafka.run (kafka.NewKafkaService brokers) calls) T).2 T _
      (kafka.mapLookup_GetProducer (kafka.run (kafka.NewKafkaService brokers) calls) T)
    rw [kafka.GetProducer_of_present _ T _ h]
  · have h := kafka.producer_stable_run between
      (kafka.GetProducer (kafka.run (kafka.NewKafkaService brokers) calls) A).2 A _
      (kafka.mapLookup_GetProducer (kafka.run (kafka.NewKafkaService brokers) calls) A)
    have hwf1 := kafka.WellFormed_exec _ (.GetProducer A) hwf
    have hwf2 := kafka.WellFormed_run between _ hwf1
    exact kafka.GetProducer_ne _ hwf2 A B _ hab h
  · rw [← hwf.producer_count, ← List.length_map _ Prod.fst]
    apply List.Perm.length_eq
    rw [List.perm_ext_iff_of_nodup hwf.producerKeys (List.nodup_dedup _)]
    intro t
    rw [kafka.mem_producer_keys_run, List.mem_dedup]
    simp [kafka.NewKafkaService]

/-- C13 (amended): in every registry state reached by a sequence of calls from
`NewKafkaService` with at least one broker, `GetConsumer` for a topic that is
not empty returns a consumer; a second `GetConsumer` for the same topic and
group, with any calls in between, returns that same consumer, and
`GetConsumer` for the same topic and another group returns a different one. -/
theorem C13_one_consumer_per_group (brokers : List String) (calls between : List kafka.Call)
    (T G1 G2 : String) (hb : brokers ≠ []) (hT : T ≠ "") :
    ∃ c1 w1,
      kafka.GetConsumer (kafka.run (kafka.NewKafkaService brokers) calls) T G1 = .ok (c1, w1) ∧
      (∃ w2, kafka.GetConsumer (kafka.run w1 between) T G1 = .ok (c1, w2)) ∧
      (G1 ≠ G2 →
        ∃ c2 w2, kafka.GetConsumer (kafka.run w1 between) T G2 = .ok (c2, w2) ∧ c2 ≠ c1) := by
  have hwf := kafka.WellFormed_run calls _ (kafka.WellFormed_NewKafkaService brokers)
  have hb0 : (kafka.run (kafka.NewKafkaService brokers) calls).k.brokers ≠ [] := by
    rw [kafka.brokers_run]
    exact hb
  obtain ⟨c1, w1, h1⟩ := kafka.GetConsumer_returns _ T G1 hb0 hT
  have hexec := kafka.exec_of_GetConsumer_ok _ w1 T G1 c1 h1
  have hwf1 : w1.WellFormed := by
    have := kafka.WellFormed_exec _ (.GetConsumer T G1) hwf
    rw [hexec] at this
    exact this
  have hb1 : (kafka.run w1 between).k.brokers ≠ [] := by
    have hbr : ((kafka.Call.GetConsumer T G1).exec
        (kafka.run (kafka.NewKafkaService brokers) calls)).2.k.brokers =
        (kafka.run (kafka.NewKafkaService brokers) calls).k.brokers :=
      kafka.brokers_run [.GetConsumer T G1] _
    rw [hexec] at hbr
    rw [kafka.brokers_run, hbr]
    exact hb0
  have hwf2 := kafka.WellFormed_run between _ hwf1
  have hstable := kafka.consumer_stable_run between w1 _ _
    (kafka.mapLookup_GetConsumer _ w1 T G1 c1 h1)
  refine ⟨c1, w1, h1, ⟨_, kafka.GetConsumer_of_present _ T G1 c1 hstable⟩, fun hg => ?_⟩
  obtain ⟨c2, w2, h2⟩ := kafka.GetConsumer_returns (kafka.run w1 between) T G2 hb1 hT
  refine ⟨c2, w2, h2, kafka.GetConsumer_ne _ w2 hwf2 _ T G2 c1 c2 ?_ hstable h2⟩
  intro heq
  rw [String.append_assoc, String.append_assoc] at heq
  exact hg (String.append_right_injective "-" G1 G2
    (String.append_right_injective T _ _ heq))

/-- C13 at the topic inventory-events with the groups dashboard and audit, on
a registry that already serves a producer, with a third group asked for in
between. -/
theorem C13_one_consumer_per_group_witness :
    (["localhost:9092"] : List String) ≠ [] ∧ "inventory-events" ≠ "" ∧
    ∃ c1 w1,
      kafka.GetConsumer
        (kafka.run (kafka.NewKafkaService ["localhost:9092"]) [.GetProducer "inventory-events"])
        "inventory-events" "dashboard" = .ok (c1, w1) ∧
      (∃ w2, kafka.GetConsumer
        (kafka.run w1 [.GetConsumer "inventory-events" "reports"])
        "inventory-events" "dashboard" = .ok (c1, w2)) ∧
      ("dashboard" ≠ "audit" →
        ∃ c2 w2, kafka.GetConsumer
          (kafka.run w1 [.GetConsumer "inventory-events" "reports"])
          "inventory-events" "audit" = .ok (c2, w2) ∧ c2 ≠ c1) :=
  ⟨by decide, by decide,
    C13_one_consumer_per_group ["localhost:9092"] [.GetProducer "inventory-events"]
      [.GetConsumer "inventory-events" "reports"] "inventory-events" "dashboard" "audit"
      (by decide) (by decide)⟩

/-- C13 as stated fails: on a registry made with an empty list of brokers
`GetConsumer` returns no consumer for any topic and group, it panics with the
error of the reader configuration; and so it does, on a registry with a
broker, for the empty topic. -/
theorem C13_counterexample :
    kafka.GetConsumer (kafka.NewKafkaService []) "inventory-events" "dashboard" =
      .error (.errorf
        "cannot create a new kafka reader with an empty list of broker addresses") ∧
    kafka.GetConsumer (kafka.NewKafkaService []) "inventory-events" "audit" =
      .error (.errorf
        "cannot create a new kafka reader with an empty list of broker addresses") ∧
    (∃ err, kafka.GetConsumer (kafka.NewKafkaService ["localhost:9092"]) "" "dashboard" =
      .error err) ∧
    (∃ err, kafka.GetConsumer (kafka.NewKafkaService ["localhost:9092"]) "" "audit" =
      .error err) :=
  ⟨rfl, rfl, ⟨_, rfl⟩, ⟨_, rfl⟩⟩

/-- C14 at its failing input: the pairs ("inventory-events", "x") and
("inventory", "events-x") differ, yet both give the map key
"inventory-events-x", so the second `GetConsumer` returns the consumer of the
first and a single consumer is constructed. -/
theorem C14_key_collision :
    (("inventory-events", "x") : String × String) ≠ ("inventory", "events-x") ∧
    ∃ c w1 w2,
      kafka.GetConsumer (kafka.NewKafkaService ["localhost:9092"]) "inventory-events" "x" =
        .ok (c, w1) ∧
      kafka.GetConsumer w1 "inventory" "events-x" = .ok (c, w2) ∧
      w2.heap.consumers.length = 1 :=
  ⟨by decide, 0,
    kafka.run (kafka.NewKafkaService ["localhost:9092"]) [.GetConsumer "inventory-events" "x"],
    kafka.run (kafka.NewKafkaService ["localhost:9092"]) [.GetConsumer "inventory-events" "x"],
    rfl, rfl, rfl⟩

/-- C20 at its failing input: the handle `GetConsumer` returns for the topic
"inventory" and the group "events-x", after a consumer was asked for the topic
"inventory-events" and the group "x", is a consumer constructed for the topic
"inventory-events" and the group "x". -/
theorem C20_handle_bound_to_other_pair :
    ∃ c0 c w1 w2,
      kafka.GetConsumer (kafka.NewKafkaService ["localhost:9092"]) "inventory-events" "x" =
        .ok (c0, w1) ∧
      kafka.GetConsumer w1 "inventory" "events-x" = .ok (c, w2) ∧
      w2.heap.consumers.get? c =
        some { reader := { config :=
          { Brokers := ["localhost:9092"], Topic := "inventory-events", GroupID := "x",
            MinBytes := 10000, MaxBytes := 10000000 } } } :=
  ⟨0, 0,
    kafka.run (kafka.NewKafkaService ["localhost:9092"]) [.GetConsumer "inventory-events" "x"],
    kafka.run (kafka.NewKafkaService ["localhost:9092"]) [.GetConsumer "inventory-events" "x"],
    rfl, rfl, rfl⟩

/-- The first loop of `Close` calls `Close` on the producer of every entry it
visits, logs the failures and touches nothing else. -/
theorem kafka.foldl_closeProducer (writerClose : Nat → Option golang.Error)
    (order : List (String × Nat)) (w : kafka.World) :
    (order.foldl (kafka.closeProducer writerClose) w).closedProducers =
      w.closedProducers ++ order.map Prod.snd ∧
    (order.foldl (kafka.closeProducer writerClose) w).closedConsumers = w.closedConsumers ∧
    (order.foldl (kafka.closeProducer writerClose) w).log =
      w.log ++ order.filterMap (kafka.producerCloseFailure writerClose) := by
  induction order generalizing w with
  | nil => simp
  | cons e order ih =>
    obtain ⟨ih1, ih2, ih3⟩ := ih (kafka.closeProducer writerClose w e)
    simp only [List.foldl_cons, ih1, ih2, ih3]
    unfold kafka.closeProducer kafka.producerCloseFailure
    cases h : writerClose e.2 <;>
      simp [List.filterMap_cons, h, kafka.producerCloseFailure]

/-- The second loop of `Close` calls `Close` on the consumer of every entry it
visits, logs the failures and touches nothing else. -/
theorem kafka.foldl_closeConsumer (readerClose : Nat → Option golang.Error)
    (order : List (String × Nat)) (w : kafka.World) :
    (order.foldl (kafka.closeConsumer readerClose) w).closedConsumers =
      w.closedConsumers ++ order.map Prod.snd ∧
    (order.foldl (kafka.closeConsumer readerClose) w).closedProducers = w.closedProducers ∧
    (order.foldl (kafka.closeConsumer readerClose) w).log =
      w.log ++ order.filterMap (kafka.consumerCloseFailure readerClose) := by
  induction order generalizing w with
  | nil => simp
  | cons e order ih =>
    obtain ⟨ih1, ih2, ih3⟩ := ih (kafka.closeConsumer readerClose w e)
    simp only [List.foldl_cons, ih1, ih2, ih3]
    unfold kafka.closeConsumer kafka.consumerCloseFailure
    cases h : readerClose e.2 <;>
      simp [List.filterMap_cons, h, kafka.consumerCloseFailure]

/-- What `Close` does: it returns nil, calls `Close` on every producer and
then on every consumer visited, and logs one line for each call that fails. -/
theorem kafka.Close_eq (writerClose readerClose : Nat → Option golang.Error)
    (producerOrder consumerOrder : List (String × Nat)) (w : kafka.World) :
    (kafka.Close writerClose readerClose producerOrder consumerOrder w).1 = none ∧
    (kafka.Close writerClose readerClose producerOrder consumerOrder w).2.closedProducers =
      w.closedProducers ++ producerOrder.map Prod.snd ∧
    (kafka.Close writerClose readerClose producerOrder consumerOrder w).2.closedConsumers =
      w.closedConsumers ++ consumerOrder.map Prod.snd ∧
    (kafka.Close writerClose readerClose producerOrder consumerOrder w).2.log =
      w.log ++ producerOrder.filterMap (kafka.producerCloseFailure writerClose) ++
        consumerOrder.filterMap (kafka.consumerCloseFailure readerClose) := by
  obtain ⟨p1, p2, p3⟩ := kafka.foldl_closeProducer writerClose producerOrder w
  obtain ⟨c1, c2, c3⟩ := kafka.foldl_closeConsumer readerClose consumerOrder
    (producerOrder.foldl (kafka.closeProducer writerClose) w)
  unfold kafka.Close
  exact ⟨rfl, c2.trans p1, by rw [c1, p2], by rw [c3, p3]⟩

/-- Under the invariant every handle a sequence of calls returns is an object
allocated by the end of the sequence. -/
theorem kafka.returned_allocated (calls : List kafka.Call) (w : kafka.World) (hwf : w.WellFormed)
    (h : kafka.Handle) (hh : h ∈ kafka.returned w calls) :
    (kafka.run w calls).allocated h := by
  induction calls generalizing w with
  | nil => cases hh
  | cons call calls ih =>
    have hwf1 := kafka.WellFormed_exec w call hwf
    rcases List.mem_append.mp hh with hfirst | hmem
    · have hsome : (call.exec w).1 = some h := by
        cases hx : (call.exec w).1 with
        | none => rw [hx] at hfirst; cases hfirst
        | some x =>
          rw [hx] at hfirst
          rw [List.mem_singleton.mp hfirst]
      have hwf2 := kafka.WellFormed_run calls _ hwf1
      cases call with
      | GetProducer t =>
        injection hsome with hsome
        subst hsome
        exact hwf2.producer_lt t _
          (kafka.producer_stable_run calls (kafka.GetProducer w t).2 t _
            (kafka.mapLookup_GetProducer w t))
      | GetConsumer t g =>
        obtain ⟨c, hc, hlookup⟩ := kafka.exec_GetConsumer_handle w t g h hsome
        subst hc
        exact hwf2.consumer_lt _ _ (kafka.consumer_stable_run calls _ _ _ hlookup)
    · exact ih _ hwf1 hmem

/-- C15: after any sequence of calls on a new registry, `Close` calls `Close`
exactly once on every producer and every consumer the registry constructed,
and so on every handle the calls returned, whatever the order in which the two
loops visit the maps and whichever of the individual closes fail. -/
theorem C15_close_reaches_every_handle (brokers : List String) (calls : List kafka.Call)
    (writerClose readerClose : Nat → Option golang.Error)
    (producerOrder consumerOrder : List (String × Nat))
    (hp : producerOrder.Perm (kafka.run (kafka.NewKafkaService brokers) calls).k.producers)
    (hc : consumerOrder.Perm (kafka.run (kafka.NewKafkaService brokers) calls).k.consumers) :
    (kafka.Close writerClose readerClose producerOrder consumerOrder
        (kafka.run (kafka.NewKafkaService brokers) calls)).2.closedProducers.Perm
      (List.range (kafka.run (kafka.NewKafkaService brokers) calls).heap.producers.length) ∧
    (kafka.Close writerClose readerClose producerOrder consumerOrder
        (kafka.run (kafka.NewKafkaService brokers) calls)).2.closedConsumers.Perm
      (List.range (kafka.run (kafka.NewKafkaService brokers) calls).heap.consumers.length) ∧
    ∀ h ∈ kafka.returned (kafka.NewKafkaService brokers) calls,
      (kafka.Close writerClose readerClose producerOrder consumerOrder
        (kafka.run (kafka.NewKafkaService brokers) calls)).2.closeCalls h = 1 := by
  have hwf := kafka.WellFormed_run calls _ (kafka.WellFormed_NewKafkaService brokers)
  obtain ⟨-, h1, h2, -⟩ := kafka.Close_eq writerClose readerClose producerOrder consumerOrder
    (kafka.run (kafka.NewKafkaService brokers) calls)
  rw [hwf.closedProducers, List.nil_append] at h1
  rw [hwf.closedConsumers, List.nil_append] at h2
  have hP : (kafka.Close writerClose readerClose producerOrder consumerOrder
      (kafka.run (kafka.NewKafkaService brokers) calls)).2.closedProducers.Perm
      (List.range (kafka.run (kafka.NewKafkaService brokers) calls).heap.producers.length) := by
    rw [h1]
    refine ((hp.map Prod.snd).trans ?_)
    rw [hwf.producerPtrs]
    exact List.reverse_perm _
  have hC : (kafka.Close writerClose readerClose producerOrder consumerOrder
      (kafka.run (kafka.NewKafkaService brokers) calls)).2.closedConsumers.Perm
      (List.range (kafka.run (kafka.NewKafkaService brokers) calls).heap.consumers.length) := by
    rw [h2]
    refine ((hc.map Prod.snd).trans ?_)
    rw [hwf.consumerPtrs]
    exact List.reverse_perm _
  refine ⟨hP, hC, fun h hh => ?_⟩
  have halloc := kafka.returned_allocated calls _ (kafka.WellFormed_NewKafkaService brokers) h hh
  cases h with
  | producer p =>
    show List.count p _ = 1
    rw [hP.count_eq]
    exact List.count_eq_one_of_mem (List.nodup_range _) (List.mem_range.mpr halloc)
  | consumer c =>
    show List.count c _ = 1
    rw [hC.count_eq]
    exact List.count_eq_one_of_mem (List.nodup_range _) (List.mem_range.mpr halloc)

/-- C15 at a registry with three producers and two consumers, the close of
the first producer and of the second consumer failing. -/
theorem C15_close_reaches_every_handle_witness :
    (kafka.run (kafka.NewKafkaService ["localhost:9092"])
        [.GetProducer "inventory-events", .GetProducer "shipment-events",
          .GetProducer "scan-events", .GetConsumer "inventory-events" "dashboard",
          .GetConsumer "inventory-events" "audit"]).k.producers.Perm
      (kafka.run (kafka.NewKafkaService ["localhost:9092"])
        [.GetProducer "inventory-events", .GetProducer "shipment-events",
          .GetProducer "scan-events", .GetConsumer "inventory-events" "dashboard",
          .GetConsumer "inventory-events" "audit"]).k.producers ∧
    ∀ h ∈ kafka.returned (kafka.NewKafkaService ["localhost:9092"])
        [.GetProducer "inventory-events", .GetProducer "shipment-events",
          .GetProducer "scan-events", .GetConsumer "inventory-events" "dashboard",
          .GetConsumer "inventory-events" "audit"],
      (kafka.Close (fun p => if p = 0 then some (.errorf "closed network connection") else none)
        (fun c => if c = 1 then some (.errorf "closed network connection") else none)
        (kafka.run (kafka.NewKafkaService ["localhost:9092"])
          [.GetProducer "inventory-events", .GetProducer "shipment-events",
            .GetProducer "scan-events", .GetConsumer "inventory-events" "dashboard",
            .GetConsumer "inventory-events" "audit"]).k.producers
        (kafka.run (kafka.NewKafkaService ["localhost:9092"])
          [.GetProducer "inventory-events", .GetProducer "shipment-events",
            .GetProducer "scan-events", .GetConsumer "inventory-events" "dashboard",
            .GetConsumer "inventory-events" "audit"]).k.consumers
        (kafka.run (kafka.NewKafkaService ["localhost:9092"])
          [.GetProducer "inventory-events", .GetProducer "shipment-events",
            .GetProducer "scan-events", .GetConsumer "inventory-events" "dashboard",
            .GetConsumer "inventory-events" "audit"])).2.closeCalls h = 1 :=
  ⟨List.Perm.refl _,
    (C15_close_reaches_every_handle ["localhost:9092"] _ _ _ _ _ (List.Perm.refl _)
      (List.Perm.refl _)).2.2⟩

/-- C17 (amended): on a registry reached by a sequence of calls that never
asked a producer for the topic, N callers of `GetProducer` for that topic, one
after another, construct one producer, which is registered under the topic,
and every one of them receives that same producer. -/
theorem C17_one_producer_for_successive_callers (brokers : List String)
    (calls : List kafka.Call) (T : String) (N : Nat)
    (hfresh : T ∉ kafka.requestedTopics calls) (hN : 0 < N) :
    (kafka.run (kafka.run (kafka.NewKafkaService brokers) calls)
        (List.replicate N (.GetProducer T))).heap.producers.length =
      (kafka.run (kafka.NewKafkaService brokers) calls).heap.producers.length + 1 ∧
    golang.mapLookup
        (kafka.run (kafka.run (kafka.NewKafkaService brokers) calls)
          (List.replicate N (.GetProducer T))).k.producers T =
      some (kafka.run (kafka.NewKafkaService brokers) calls).heap.producers.length ∧
    kafka.returned (kafka.run (kafka.NewKafkaService brokers) calls)
        (List.replicate N (.GetProducer T)) =
      List.replicate N
        (.producer (kafka.run (kafka.NewKafkaService brokers) calls).heap.producers.length) := by
  obtain ⟨n, rfl⟩ : ∃ n, N = n + 1 := ⟨N - 1, by omega⟩
  have habsent : golang.mapLookup (kafka.run (kafka.NewKafkaService brokers) calls).k.producers T =
      none := by
    apply golang.mapLookup_eq_none_of_not_mem_keys
    rw [kafka.mem_producer_keys_run]
    simp [kafka.NewKafkaService, hfresh]
  obtain ⟨h1, -, -, h4, -⟩ := kafka.GetProducer_of_absent _ T habsent
  have hstored := kafka.mapLookup_GetProducer (kafka.run (kafka.NewKafkaService brokers) calls) T
  obtain ⟨hrun, hret⟩ := kafka.run_replicate_of_present n _ T _ hstored
  refine ⟨?_, ?_, ?_⟩
  · show (kafka.run (kafka.GetProducer _ T).2 (List.replicate n _)).heap.producers.length = _
    rw [hrun, h4]
  · show golang.mapLookup (kafka.run (kafka.GetProducer _ T).2 (List.replicate n _)).k.producers
      T = _
    rw [hrun, hstored, h1]
  · show [kafka.Handle.producer (kafka.GetProducer _ T).1] ++
      kafka.returned (kafka.GetProducer _ T).2 (List.replicate n _) = _
    rw [hret, h1]
    rfl

/-- C17 at three callers for the topic scan-events on a registry that serves
another topic. -/
theorem C17_one_producer_for_successive_callers_witness :
    "scan-events" ∉ kafka.requestedTopics [.GetProducer "inventory-events"] ∧ 0 < 3 ∧
    kafka.returned
        (kafka.run (kafka.NewKafkaService ["localhost:9092"]) [.GetProducer "inventory-events"])
        (List.replicate 3 (.GetProducer "scan-events")) =
      List.replicate 3
        (.producer (kafka.run (kafka.NewKafkaService ["localhost:9092"])
          [.GetProducer "inventory-events"]).heap.producers.length) :=
  ⟨by decide, by decide,
    (C17_one_producer_for_successive_callers ["localhost:9092"] [.GetProducer "inventory-events"]
      "scan-events" 3 (by decide) (by decide)).2.2⟩

/-- C17 as stated fails: two callers of `GetProducer` for the unused topic
scan-events run side by side on a new registry; both look the topic up before
either stores a producer, so both find it absent and each constructs one. Two
producers are constructed, the callers receive different instances, and the
map keeps the second only. -/
theorem C17_counterexample :
    (kafka.interleave (kafka.NewKafkaService ["localhost:9092"])
        [.entered "scan-events", .entered "scan-events"] [0, 1, 0, 1]).1 =
      [.returned 0, .returned 1] ∧
    (kafka.interleave (kafka.NewKafkaService ["localhost:9092"])
        [.entered "scan-events", .entered "scan-events"] [0, 1, 0, 1]).2.heap.producers.length =
      2 ∧
    (kafka.interleave (kafka.NewKafkaService ["localhost:9092"])
        [.entered "scan-events", .entered "scan-events"] [0, 1, 0, 1]).2.k.producers =
      [("scan-events", 1)] := by
  decide

/-! ## Event envelope: the claims -/

/-- `ToJSON` of an envelope whose timestamp and payload have an encoding. -/
theorem models.EventMessage.ToJSON_of_ok {α : Type} (enc : json.Encoder α)
    (e : models.EventMessage α) (ts d : json.Value)
    (hts : enc.time e.Timestamp = .ok ts) (hd : enc.dynamic e.Data = .ok d) :
    e.ToJSON enc = .ok (.object
      [("eventType", .string e.EventType), ("eventId", .string e.EventID),
        ("timestamp", ts), ("data", d)]) := by
  simp only [models.EventMessage.ToJSON, json.Marshal, models.EventMessage.fields,
    json.encodeFields, json.encodeValue, hts, hd]

/-- `ToJSON` of an envelope whose timestamp has no encoding. -/
theorem models.EventMessage.ToJSON_of_time_error {α : Type} (enc : json.Encoder α)
    (e : models.EventMessage α) (err : golang.Error)
    (hts : enc.time e.Timestamp = .error err) :
    e.ToJSON enc = .error err := by
  simp only [models.EventMessage.ToJSON, json.Marshal, models.EventMessage.fields,
    json.encodeFields, json.encodeValue, hts]

/-- `ToJSON` of an envelope whose payload has no encoding. -/
theorem models.EventMessage.ToJSON_of_data_error {α : Type} (enc : json.Encoder α)
    (e : models.EventMessage α) (ts : json.Value) (err : golang.Error)
    (hts : enc.time e.Timestamp = .ok ts) (hd : enc.dynamic e.Data = .error err) :
    e.ToJSON enc = .error err := by
  simp only [models.EventMessage.ToJSON, json.Marshal, models.EventMessage.fields,
    json.encodeFields, json.encodeValue, hts, hd]

/-- The encoding of the instant half a second after 22:13:20 on 14 November
2023, UTC. -/
theorem json.encodeTime_example :
    json.Encoder.utc.time 1700000000500000000 = .ok (.string "2023-11-14T22:13:20.5Z") := by
  have h : time.MarshalJSON 1700000000500000000 = .ok "2023-11-14T22:13:20.5Z" := by
    rfl
  show json.encodeTime 1700000000500000000 = _
  unfold json.encodeTime
  rw [h]

/-- C18 (amended): when the timestamp and the payload of an `EventMessage`
have an encoding, `ToJSON` produces the JSON object with exactly the four keys
eventType, eventId, timestamp and data, in that order, whose values are the
event type and the event id as strings, the encoded timestamp and the encoded
payload; when the timestamp or the payload has none, `ToJSON` returns the
error of the encoder and no JSON. It produces nothing else, and the payload,
of whatever type, is only handed to the encoder. -/
theorem C18_toJSON_four_keys_or_error (α : Type) (enc : json.Encoder α)
    (e : models.EventMessage α) :
    (∀ ts d, enc.time e.Timestamp = .ok ts → enc.dynamic e.Data = .ok d →
      e.ToJSON enc = .ok (.object
        [("eventType", .string e.EventType), ("eventId", .string e.EventID),
          ("timestamp", ts), ("data", d)])) ∧
    (∀ err, enc.time e.Timestamp = .error err → e.ToJSON enc = .error err) ∧
    (∀ ts err, enc.time e.Timestamp = .ok ts → enc.dynamic e.Data = .error err →
      e.ToJSON enc = .error err) ∧
    (∀ out, e.ToJSON enc = .ok out →
      out.keys = some ["eventType", "eventId", "timestamp", "data"] ∧
      ∃ ts d, enc.time e.Timestamp = .ok ts ∧ enc.dynamic e.Data = .ok d ∧
        out = .object
          [("eventType", .string e.EventType), ("eventId", .string e.EventID),
            ("timestamp", ts), ("data", d)]) := by
  refine ⟨fun ts d => models.EventMessage.ToJSON_of_ok enc e ts d,
    fun err => models.EventMessage.ToJSON_of_time_error enc e err,
    fun ts err => models.EventMessage.ToJSON_of_data_error enc e ts err, ?_⟩
  intro out hout
  simp only [models.EventMessage.ToJSON, json.Marshal, models.EventMessage.fields,
    json.encodeFields, json.encodeValue] at hout
  cases hts : enc.time e.Timestamp with
  | error err => simp [hts] at hout
  | ok ts =>
    cases hd : enc.dynamic e.Data with
    | error err => simp [hts, hd] at hout
    | ok d =>
      simp only [hts, hd, Except.ok.injEq] at hout
      subst hout
      exact ⟨rfl, ts, d, rfl, rfl, rfl⟩

/-- C18 at an envelope of type item_created, stamped half a second after
22:13:20 on 14 November 2023 (UTC), with a string payload. -/
theorem C18_toJSON_four_keys_or_error_witness :
    (models.EventMessage.ToJSON json.Encoder.utc
        { EventType := "item_created", EventID := "00010203-0405-4607-8809-0a0b0c0d0e0f",
          Timestamp := 1700000000500000000, Data := .string "ITM-2024-001" }) =
      .ok (.object
        [("eventType", .string "item_created"),
          ("eventId", .string "00010203-0405-4607-8809-0a0b0c0d0e0f"),
          ("timestamp", .string "2023-11-14T22:13:20.5Z"),
          ("data", .string "ITM-2024-001")]) :=
  (C18_toJSON_four_keys_or_error golang.Dynamic json.Encoder.utc
    { EventType := "item_created", EventID := "00010203-0405-4607-8809-0a0b0c0d0e0f",
      Timestamp := 1700000000500000000, Data := .string "ITM-2024-001" }).1 _ _
    json.encodeTime_example rfl

/-- C18 as stated fails: for an envelope whose payload is a channel, and for
one whose payload is the number NaN, `ToJSON` returns the error of the encoder
and produces no JSON object at all. -/
theorem C18_counterexample :
    (models.EventMessage.ToJSON json.Encoder.utc
        { EventType := "item_created", EventID := "00010203-0405-4607-8809-0a0b0c0d0e0f",
          Timestamp := 1700000000500000000, Data := .chan }) =
      .error (.errorf "json: unsupported type: chan int") ∧
    (models.EventMessage.ToJSON json.Encoder.utc
        { EventType := "item_created", EventID := "00010203-0405-4607-8809-0a0b0c0d0e0f",
          Timestamp := 1700000000500000000, Data := .float64NaN }) =
      .error (.errorf "json: unsupported value: NaN") := by
  exact ⟨models.EventMessage.ToJSON_of_data_error _ _ _ _ json.encodeTime_example rfl,
    models.EventMessage.ToJSON_of_data_error _ _ _ _ json.encodeTime_example rfl⟩

/-- C19: for every event type and every payload, of whatever type,
`NewEventMessage` returns an envelope with that event type and that payload
unchanged, with the reading of the clock as its timestamp, and with the string
form of the freshly generated identifier as its event id, which depends on
neither the event type nor the payload. -/
theorem C19_new_event_message (α : Type) (random : List Nat) (now : time.Time)
    (eventType : String) (data : α) :
    (models.NewEventMessage random now eventType data).EventType = eventType ∧
    (models.NewEventMessage random now eventType data).Data = data ∧
    (models.NewEventMessage random now eventType data).Timestamp = now ∧
    (models.NewEventMessage random now eventType data).EventID = uuid.String (uuid.New random) ∧
    ∀ (β : Type) (eventType' : String) (data' : β),
      (models.NewEventMessage random now eventType' data').EventID =
        (models.NewEventMessage random now eventType data).EventID :=
  ⟨rfl, rfl, rfl, rfl, fun _ _ _ => rfl⟩

/-! ## Permission levels: an unrecognised requirement -/

/-- C21: when the required level is not one of level_1..level_5, both
`auth.HasPermission` and `User.HasPermission` return true for every user
level, recognised or not: the requirement ranks 0 and every rank is at
least 0. -/
theorem C21_unknown_requirement_granted (userLevel requiredLevel : String) (u : models.User)
    (hr : ¬ Spec.isTier requiredLevel) :
    auth.HasPermission userLevel requiredLevel = true ∧
    u.HasPermission requiredLevel = true := by
  have h0 := Spec.rank_eq_zero_of_not_isTier requiredLevel hr
  constructor
  · simp only [auth.HasPermission, auth.mapIndex_levels_eq_rank, h0, decide_eq_true_eq,
      ge_iff_le, Nat.cast_le]
    exact Nat.zero_le _
  · simp only [models.User.HasPermission, models.mapIndex_userLevels_eq_rank, h0,
      decide_eq_true_eq, ge_iff_le, Nat.cast_le]
    exact Nat.zero_le _

/-- C21 at the empty required level, for an empty user level and for a user
whose access level is misspelt. -/
theorem C21_unknown_requirement_granted_witness :
    ¬ Spec.isTier "" ∧
    auth.HasPermission "" "" = true ∧
    models.User.HasPermission
      { ID := [], UserID := "USR-2024-001", Username := "operator",
        Email := "operator@example.com", PasswordHash := "", Role := "scanner_user",
        AccessLevel := "level-1", Barcode := "", IsActive := true, LastScan := none,
        CreatedAt := 0, UpdatedAt := 0 } "" = true :=
  ⟨by decide, C21_unknown_requirement_granted "" "" _ (by decide)⟩
